import Mathlib

/-!
# Verification of the moqt-transport core

A shallow embedding, in Lean 4, of the `moqt-transport` Rust crate:
the RFC 9000 variable-length integer codec, the framed control-message
codec with all control-message payload grammars, the session state
machine (GOAWAY / MAX_REQUEST_ID handling) and the track manager
(request-id allocation, alias binding, subscription bookkeeping).

Machine integers are modelled as `Nat` (u8 fields are `Nat` values
below 256, u64 fields are `Nat` values below `2 ^ 64`); byte buffers
(`BytesMut`) are `List Nat` of byte values; fallible operations return
`Except Error`; the streaming decoders return their remaining input
explicitly, so `decode buf = .ok (none, buf')` models the Rust decoder
returning `Ok(None)` with `buf'` left in the mutable buffer.
Rust bit operations on values known to fit are rendered
arithmetically: `x >> n` is `x / 2 ^ n`, `x & 0xff` is `x % 2 ^ 8`,
`x & 0x3f` is `x % 2 ^ 6`, and `a | b` with disjoint bit ranges is
`a + b`.
-/

namespace Moqt

/-- `std::io::ErrorKind` values used by the crate. -/
inductive IoErrorKind where
  | unexpectedEof
  | invalidData
  deriving DecidableEq, Repr

/-- The crate's `error::Error` enum (src/error.rs). The `Transport`
variant's boxed payload is irrelevant to the claims and is dropped. -/
inductive Error where
  | transport
  | codec (msg : String)
  | protocolViolation (reason : String)
  | subscriptionFailed (code : Nat) (reason : String)
  | sessionClosed
  | duplicateTrackAlias (a : Nat)
  | varIntRange
  | unknownMessageType
  | io (kind : IoErrorKind) (msg : String)
  | tooManyRequests
  deriving DecidableEq, Repr

/-- Helper for the pervasive `.ok_or_else(|| IoError::new(ErrorKind::UnexpectedEof, msg))?`
pattern applied to `VarInt.decode` results. -/
def eofErr (msg : String) : Error := .io .unexpectedEof msg

/-- Helper for `IoError::new(ErrorKind::InvalidData, msg)`. -/
def invErr (msg : String) : Error := .io .invalidData msg

/-- The byte lists produced by the four length classes of
`VarInt::encode` (src/coding/varint.rs); the final branch is the
8-byte class without the range guard, which lives in `VarInt.encode`. -/
def varIntEncodeBytes (v : Nat) : List Nat :=
  if v < 2 ^ 6 then
    [v]
  else if v < 2 ^ 14 then
    [0x40 + v / 2 ^ 8, v % 2 ^ 8]
  else if v < 2 ^ 30 then
    [0x80 + v / 2 ^ 24, v / 2 ^ 16 % 2 ^ 8, v / 2 ^ 8 % 2 ^ 8, v % 2 ^ 8]
  else
    [0xC0 + v / 2 ^ 56, v / 2 ^ 48 % 2 ^ 8, v / 2 ^ 40 % 2 ^ 8, v / 2 ^ 32 % 2 ^ 8,
      v / 2 ^ 24 % 2 ^ 8, v / 2 ^ 16 % 2 ^ 8, v / 2 ^ 8 % 2 ^ 8, v % 2 ^ 8]

namespace VarInt

/-- `VarInt::encode` (src/coding/varint.rs): returns the bytes that the
Rust encoder appends to `dst`, or `Error::VarIntRange` for `v ≥ 2^62`
(in which case the Rust encoder appends nothing). -/
def encode (v : Nat) : Except Error (List Nat) :=
  if v < 2 ^ 6 then .ok [v]
  else if v < 2 ^ 14 then .ok [0x40 + v / 2 ^ 8, v % 2 ^ 8]
  else if v < 2 ^ 30 then
    .ok [0x80 + v / 2 ^ 24, v / 2 ^ 16 % 2 ^ 8, v / 2 ^ 8 % 2 ^ 8, v % 2 ^ 8]
  else if v < 2 ^ 62 then
    .ok [0xC0 + v / 2 ^ 56, v / 2 ^ 48 % 2 ^ 8, v / 2 ^ 40 % 2 ^ 8, v / 2 ^ 32 % 2 ^ 8,
      v / 2 ^ 24 % 2 ^ 8, v / 2 ^ 16 % 2 ^ 8, v / 2 ^ 8 % 2 ^ 8, v % 2 ^ 8]
  else .error .varIntRange

/-- `VarInt::decode` (src/coding/varint.rs): `none` models `Ok(None)`
(incomplete, nothing consumed); `some (v, rest)` models `Ok(Some(v))`
with `rest` the buffer after `split_to(len)`. The length class is read
from the first byte: `prefix = first >> 6`, `len = 1 << prefix`, so for
u8 input the three comparisons below are exactly the prefix dispatch. -/
def decode : List Nat → Option (Nat × List Nat)
  | [] => none
  | first :: rest =>
    if first < 0x40 then
      some (first % 0x40, rest)
    else if first < 0x80 then
      match rest with
      | b1 :: r => some (first % 0x40 * 2 ^ 8 + b1, r)
      | _ => none
    else if first < 0xC0 then
      match rest with
      | b1 :: b2 :: b3 :: r =>
        some (first % 0x40 * 2 ^ 24 + b1 * 2 ^ 16 + b2 * 2 ^ 8 + b3, r)
      | _ => none
    else
      match rest with
      | b1 :: b2 :: b3 :: b4 :: b5 :: b6 :: b7 :: r =>
        some (first % 0x40 * 2 ^ 56 + b1 * 2 ^ 48 + b2 * 2 ^ 40 + b3 * 2 ^ 32 +
          b4 * 2 ^ 24 + b5 * 2 ^ 16 + b6 * 2 ^ 8 + b7, r)
      | _ => none

end VarInt

/-- `Rust std: String::from_utf8` byte-level validity (RFC 3629 table):
ASCII, 2/3/4-byte sequences with the usual continuation ranges, no
overlongs, no surrogates, max U+10FFFF. Rust `String` values are
modelled as their UTF-8 byte lists, so `from_utf8` becomes this check. -/
def isCont (b : Nat) : Bool := 0x80 ≤ b && b < 0xC0

def validUtf8 : List Nat → Bool
  | [] => true
  | b :: rest =>
    if b < 0x80 then validUtf8 rest
    else if b < 0xC2 then false
    else if b < 0xE0 then
      match rest with
      | c1 :: r => isCont c1 && validUtf8 r
      | _ => false
    else if b < 0xF0 then
      match rest with
      | c1 :: c2 :: r =>
        (if b = 0xE0 then 0xA0 ≤ c1 && c1 < 0xC0
         else if b = 0xED then 0x80 ≤ c1 && c1 < 0xA0
         else isCont c1) && isCont c2 && validUtf8 r
      | _ => false
    else if b < 0xF5 then
      match rest with
      | c1 :: c2 :: c3 :: r =>
        (if b = 0xF0 then 0x90 ≤ c1 && c1 < 0xC0
         else if b = 0xF4 then 0x80 ≤ c1 && c1 < 0x90
         else isCont c1) && isCont c2 && isCont c3 && validUtf8 r
      | _ => false
    else false

/-- `String::from_utf8(bytes).map_err(|e| IoError::new(InvalidData, e))`:
the error payload carries the Utf8Error display, summarized as "utf8". -/
def fromUtf8 (bs : List Nat) : Except Error (List Nat) :=
  if validUtf8 bs then .ok bs else .error (invErr "utf8")

/-- `model::Parameter` (src/model.rs). -/
structure Parameter where
  parameter_type : Nat
  value : List Nat
  deriving DecidableEq, Repr

/-- `Parameter::encode` (src/model.rs): even types carry the stored
bytes directly as a varint payload (1–8 bytes), odd types are
length-prefixed with length at most 0xFFFF. -/
def Parameter.encode (p : Parameter) : Except Error (List Nat) := do
  let tb ← VarInt.encode p.parameter_type
  if p.parameter_type % 2 = 0 then
    if p.value.isEmpty || 8 < p.value.length then
      throw (.protocolViolation "invalid varint parameter value")
    else
      pure (tb ++ p.value)
  else
    if 0xFFFF < p.value.length then
      throw (.protocolViolation "parameter value length exceeded")
    else do
      let lb ← VarInt.encode p.value.length
      pure (tb ++ lb ++ p.value)

/-- `Parameter::decode` (src/model.rs): even types decode a varint and
re-serialize it (canonically); odd types read a length then raw bytes. -/
def Parameter.decode (buf : List Nat) : Except Error (Parameter × List Nat) :=
  match VarInt.decode buf with
  | none => .error (eofErr "parameter type")
  | some (parameter_type, buf) =>
    if parameter_type % 2 = 0 then
      match VarInt.decode buf with
      | none => .error (eofErr "parameter value")
      | some (val, buf) =>
        match VarInt.encode val with
        | .error e => .error e
        | .ok tmp => .ok ({ parameter_type := parameter_type, value := tmp }, buf)
    else
      match VarInt.decode buf with
      | none => .error (eofErr "parameter len")
      | some (len, buf) =>
        if 0xFFFF < len then .error (.protocolViolation "parameter value length exceeded")
        else if buf.length < len then .error (eofErr "parameter value")
        else .ok ({ parameter_type := parameter_type, value := buf.take len }, buf.drop len)

/-- `model::Location` (src/model.rs). -/
structure Location where
  group : Nat
  object : Nat
  deriving DecidableEq, Repr

/-- `Location::encode` (src/model.rs): group then object as varints. -/
def Location.encode (l : Location) : Except Error (List Nat) := do
  let g ← VarInt.encode l.group
  let o ← VarInt.encode l.object
  pure (g ++ o)

/-- `Location::decode` (src/model.rs). -/
def Location.decode (buf : List Nat) : Except Error (Location × List Nat) :=
  match VarInt.decode buf with
  | none => .error (eofErr "location group")
  | some (group, buf) =>
    match VarInt.decode buf with
    | none => .error (eofErr "location object")
    | some (object, buf) => .ok ({ group := group, object := object }, buf)

/-- The parameter-list encode loop shared verbatim by most message
payloads (e.g. src/message/subscribe.rs): each parameter is written as
`type (varint), len (varint), value bytes` with no even/odd split. -/
def encodeParamsRaw : List Parameter → Except Error (List Nat)
  | [] => pure []
  | p :: ps => do
    let tb ← VarInt.encode p.parameter_type
    let lb ← VarInt.encode p.value.length
    let rest ← encodeParamsRaw ps
    pure (tb ++ lb ++ p.value ++ rest)

/-- The matching decode loop (`for _ in 0..params_len`), shared by the
same messages; the per-site EOF message strings are collapsed to one. -/
def decodeParamsRaw : Nat → List Nat → Except Error (List Parameter × List Nat)
  | 0, buf => .ok ([], buf)
  | n + 1, buf =>
    match VarInt.decode buf with
    | none => .error (eofErr "parameter type")
    | some (ty, buf) =>
      match VarInt.decode buf with
      | none => .error (eofErr "parameter len")
      | some (len, buf) =>
        if buf.length < len then .error (eofErr "parameter value")
        else do
          let (ps, rest) ← decodeParamsRaw n (buf.drop len)
          .ok ({ parameter_type := ty, value := buf.take len } :: ps, rest)

/-- Validity of a parameter list under the raw (no even/odd split)
encoding: varint-typed numbers in range, byte values in `u8` range. -/
def ParamsWf (ps : List Parameter) : Prop :=
  ∀ p ∈ ps, p.parameter_type < 2 ^ 62 ∧ p.value.length < 2 ^ 62 ∧ ∀ b ∈ p.value, b < 256

/-- `MAX_REQUEST_ID` payload (src/message/max_request_id.rs). -/
structure MaxRequestId where
  request_id : Nat
  deriving DecidableEq, Repr

def MaxRequestId.encode (m : MaxRequestId) : Except Error (List Nat) := do
  let b ← VarInt.encode m.request_id
  pure b

def MaxRequestId.decode (buf : List Nat) : Except Error (MaxRequestId × List Nat) :=
  match VarInt.decode buf with
  | none => .error (eofErr "request id")
  | some (request_id, buf) => .ok ({ request_id := request_id }, buf)

def MaxRequestId.Wf (m : MaxRequestId) : Prop := m.request_id < 2 ^ 62

/-- `REQUESTS_BLOCKED` payload (src/message/requests_blocked.rs). -/
structure RequestsBlocked where
  maximum_request_id : Nat
  deriving DecidableEq, Repr

def RequestsBlocked.encode (m : RequestsBlocked) : Except Error (List Nat) := do
  let b ← VarInt.encode m.maximum_request_id
  pure b

def RequestsBlocked.decode (buf : List Nat) : Except Error (RequestsBlocked × List Nat) :=
  match VarInt.decode buf with
  | none => .error (eofErr "maximum request id")
  | some (maximum_request_id, buf) => .ok ({ maximum_request_id := maximum_request_id }, buf)

def RequestsBlocked.Wf (m : RequestsBlocked) : Prop := m.maximum_request_id < 2 ^ 62

/-- `UNSUBSCRIBE` payload (src/message/unsubscribe.rs). -/
structure Unsubscribe where
  request_id : Nat
  deriving DecidableEq, Repr

def Unsubscribe.encode (m : Unsubscribe) : Except Error (List Nat) := do
  let b ← VarInt.encode m.request_id
  pure b

def Unsubscribe.decode (buf : List Nat) : Except Error (Unsubscribe × List Nat) :=
  match VarInt.decode buf with
  | none => .error (eofErr "request id")
  | some (request_id, buf) => .ok ({ request_id := request_id }, buf)

def Unsubscribe.Wf (m : Unsubscribe) : Prop := m.request_id < 2 ^ 62

/-- `ANNOUNCE_OK` payload (src/message/announce_ok.rs). -/
structure AnnounceOk where
  request_id : Nat
  deriving DecidableEq, Repr

def AnnounceOk.encode (m : AnnounceOk) : Except Error (List Nat) := do
  let b ← VarInt.encode m.request_id
  pure b

def AnnounceOk.decode (buf : List Nat) : Except Error (AnnounceOk × List Nat) :=
  match VarInt.decode buf with
  | none => .error (eofErr "request id")
  | some (request_id, buf) => .ok ({ request_id := request_id }, buf)

def AnnounceOk.Wf (m : AnnounceOk) : Prop := m.request_id < 2 ^ 62

/-- `UNANNOUNCE` payload (src/message/unannounce.rs). -/
structure Unannounce where
  track_namespace : Nat
  deriving DecidableEq, Repr

def Unannounce.encode (m : Unannounce) : Except Error (List Nat) := do
  let b ← VarInt.encode m.track_namespace
  pure b

def Unannounce.decode (buf : List Nat) : Except Error (Unannounce × List Nat) :=
  match VarInt.decode buf with
  | none => .error (eofErr "track namespace")
  | some (track_namespace, buf) => .ok ({ track_namespace := track_namespace }, buf)

def Unannounce.Wf (m : Unannounce) : Prop := m.track_namespace < 2 ^ 62

/-- Modelled from the spec: `FETCH_CANCEL` (src/message/fetch_cancel.rs is
absent from src/); §4.3 gives the payload as `V(request_id)`, matching the
sibling single-varint messages above. -/
structure FetchCancel where
  request_id : Nat
  deriving DecidableEq, Repr

def FetchCancel.encode (m : FetchCancel) : Except Error (List Nat) := do
  let b ← VarInt.encode m.request_id
  pure b

def FetchCancel.decode (buf : List Nat) : Except Error (FetchCancel × List Nat) :=
  match VarInt.decode buf with
  | none => .error (eofErr "request id")
  | some (request_id, buf) => .ok ({ request_id := request_id }, buf)

def FetchCancel.Wf (m : FetchCancel) : Prop := m.request_id < 2 ^ 62

/-- Modelled from the spec: `SUBSCRIBE_ANNOUNCES_OK`
(src/message/subscribe_announces_ok.rs is absent from src/); §4.3 gives
the payload as `V(request_id)`. -/
structure SubscribeAnnouncesOk where
  request_id : Nat
  deriving DecidableEq, Repr

def SubscribeAnnouncesOk.encode (m : SubscribeAnnouncesOk) : Except Error (List Nat) := do
  let b ← VarInt.encode m.request_id
  pure b

def SubscribeAnnouncesOk.decode (buf : List Nat) :
    Except Error (SubscribeAnnouncesOk × List Nat) :=
  match VarInt.decode buf with
  | none => .error (eofErr "request id")
  | some (request_id, buf) => .ok ({ request_id := request_id }, buf)

def SubscribeAnnouncesOk.Wf (m : SubscribeAnnouncesOk) : Prop := m.request_id < 2 ^ 62

/-- `GOAWAY` payload (src/message/goaway.rs): a varint URI length (at
most 8192) then the URI bytes; length zero decodes to `none`. -/
structure Goaway where
  new_session_uri : Option (List Nat)
  deriving DecidableEq, Repr

def Goaway.encode (m : Goaway) : Except Error (List Nat) := do
  match m.new_session_uri with
  | some uri =>
    if 8192 < uri.length then
      throw (invErr "uri too long")
    else do
      let lb ← VarInt.encode uri.length
      pure (lb ++ uri)
  | none => do
    let lb ← VarInt.encode 0
    pure lb

def Goaway.decode (buf : List Nat) : Except Error (Goaway × List Nat) :=
  match VarInt.decode buf with
  | none => .error (eofErr "uri length")
  | some (len, buf) =>
    if 8192 < len then .error (invErr "uri too long")
    else if buf.length < len then .error (eofErr "uri")
    else
      if len = 0 then .ok ({ new_session_uri := none }, buf.drop len)
      else do
        let uri ← fromUtf8 (buf.take len)
        .ok ({ new_session_uri := some uri }, buf.drop len)

def Goaway.Wf (m : Goaway) : Prop :=
  match m.new_session_uri with
  | none => True
  | some uri => uri.length ≤ 8192 ∧ validUtf8 uri = true

/-- `SUBSCRIBE_ERROR` payload (src/message/subscribe_error.rs). -/
structure SubscribeError where
  request_id : Nat
  error_code : Nat
  error_reason : List Nat
  deriving DecidableEq, Repr

def SubscribeError.encode (m : SubscribeError) : Except Error (List Nat) := do
  let b1 ← VarInt.encode m.request_id
  let b2 ← VarInt.encode m.error_code
  let lb ← VarInt.encode m.error_reason.length
  pure (b1 ++ b2 ++ lb ++ m.error_reason)

def SubscribeError.decode (buf : List Nat) : Except Error (SubscribeError × List Nat) :=
  match VarInt.decode buf with
  | none => .error (eofErr "request id")
  | some (request_id, buf) =>
    match VarInt.decode buf with
    | none => .error (eofErr "error code")
    | some (error_code, buf) =>
      match VarInt.decode buf with
      | none => .error (eofErr "reason length")
      | some (reason_len, buf) =>
        if buf.length < reason_len then .error (eofErr "reason")
        else do
          let error_reason ← fromUtf8 (buf.take reason_len)
          .ok (⟨request_id, error_code, error_reason⟩, buf.drop reason_len)

def SubscribeError.Wf (m : SubscribeError) : Prop :=
  m.request_id < 2 ^ 62 ∧ m.error_code < 2 ^ 62 ∧
    m.error_reason.length < 2 ^ 62 ∧ validUtf8 m.error_reason = true

/-- `ANNOUNCE_CANCEL` payload (src/message/announce_cancel.rs). -/
structure AnnounceCancel where
  track_namespace : Nat
  error_code : Nat
  error_reason : List Nat
  deriving DecidableEq, Repr

def AnnounceCancel.encode (m : AnnounceCancel) : Except Error (List Nat) := do
  let b1 ← VarInt.encode m.track_namespace
  let b2 ← VarInt.encode m.error_code
  let lb ← VarInt.encode m.error_reason.length
  pure (b1 ++ b2 ++ lb ++ m.error_reason)

def AnnounceCancel.decode (buf : List Nat) : Except Error (AnnounceCancel × List Nat) :=
  match VarInt.decode buf with
  | none => .error (eofErr "track namespace")
  | some (track_namespace, buf) =>
    match VarInt.decode buf with
    | none => .error (eofErr "error code")
    | some (error_code, buf) =>
      match VarInt.decode buf with
      | none => .error (eofErr "reason length")
      | some (reason_len, buf) =>
        if buf.length < reason_len then .error (eofErr "reason")
        else do
          let error_reason ← fromUtf8 (buf.take reason_len)
          .ok (⟨track_namespace, error_code, error_reason⟩, buf.drop reason_len)

def AnnounceCancel.Wf (m : AnnounceCancel) : Prop :=
  m.track_namespace < 2 ^ 62 ∧ m.error_code < 2 ^ 62 ∧
    m.error_reason.length < 2 ^ 62 ∧ validUtf8 m.error_reason = true

/-- Modelled from the spec: `ANNOUNCE_ERROR`
(src/message/announce_error.rs is absent from src/); §4.3 gives
`V(request_id), V(error_code), S(reason)`, matching the present
`SubscribeError` payload shape. -/
structure AnnounceError where
  request_id : Nat
  error_code : Nat
  reason : List Nat
  deriving DecidableEq, Repr

def AnnounceError.encode (m : AnnounceError) : Except Error (List Nat) := do
  let b1 ← VarInt.encode m.request_id
  let b2 ← VarInt.encode m.error_code
  let lb ← VarInt.encode m.reason.length
  pure (b1 ++ b2 ++ lb ++ m.reason)

def AnnounceError.decode (buf : List Nat) : Except Error (AnnounceError × List Nat) :=
  match VarInt.decode buf with
  | none => .error (eofErr "request id")
  | some (request_id, buf) =>
    match VarInt.decode buf with
    | none => .error (eofErr "error code")
    | some (error_code, buf) =>
      match VarInt.decode buf with
      | none => .error (eofErr "reason length")
      | some (reason_len, buf) =>
        if buf.length < reason_len then .error (eofErr "reason")
        else do
          let reason ← fromUtf8 (buf.take reason_len)
          .ok (⟨request_id, error_code, reason⟩, buf.drop reason_len)

def AnnounceError.Wf (m : AnnounceError) : Prop :=
  m.request_id < 2 ^ 62 ∧ m.error_code < 2 ^ 62 ∧
    m.reason.length < 2 ^ 62 ∧ validUtf8 m.reason = true

/-- Modelled from the spec: `FETCH_ERROR` (src/message/fetch_error.rs is
absent from src/); §4.3 gives `V(request_id), V(error_code), S(reason)`. -/
structure FetchError where
  request_id : Nat
  error_code : Nat
  reason : List Nat
  deriving DecidableEq, Repr

def FetchError.encode (m : FetchError) : Except Error (List Nat) := do
  let b1 ← VarInt.encode m.request_id
  let b2 ← VarInt.encode m.error_code
  let lb ← VarInt.encode m.reason.length
  pure (b1 ++ b2 ++ lb ++ m.reason)

def FetchError.decode (buf : List Nat) : Except Error (FetchError × List Nat) :=
  match VarInt.decode buf with
  | none => .error (eofErr "request id")
  | some (request_id, buf) =>
    match VarInt.decode buf with
    | none => .error (eofErr "error code")
    | some (error_code, buf) =>
      match VarInt.decode buf with
      | none => .error (eofErr "reason length")
      | some (reason_len, buf) =>
        if buf.length < reason_len then .error (eofErr "reason")
        else do
          let reason ← fromUtf8 (buf.take reason_len)
          .ok (⟨request_id, error_code, reason⟩, buf.drop reason_len)

def FetchError.Wf (m : FetchError) : Prop :=
  m.request_id < 2 ^ 62 ∧ m.error_code < 2 ^ 62 ∧
    m.reason.length < 2 ^ 62 ∧ validUtf8 m.reason = true

/-- Modelled from the spec: `PUBLISH_ERROR` (src/message/publish_error.rs
is absent from src/); §4.3 gives `V(request_id), V(error_code), S(reason)`. -/
structure PublishError where
  request_id : Nat
  error_code : Nat
  reason : List Nat
  deriving DecidableEq, Repr

def PublishError.encode (m : PublishError) : Except Error (List Nat) := do
  let b1 ← VarInt.encode m.request_id
  let b2 ← VarInt.encode m.error_code
  let lb ← VarInt.encode m.reason.length
  pure (b1 ++ b2 ++ lb ++ m.reason)

def PublishError.decode (buf : List Nat) : Except Error (PublishError × List Nat) :=
  match VarInt.decode buf with
  | none => .error (eofErr "request id")
  | some (request_id, buf) =>
    match VarInt.decode buf with
    | none => .error (eofErr "error code")
    | some (error_code, buf) =>
      match VarInt.decode buf with
      | none => .error (eofErr "reason length")
      | some (reason_len, buf) =>
        if buf.length < reason_len then .error (eofErr "reason")
        else do
          let reason ← fromUtf8 (buf.take reason_len)
          .ok (⟨request_id, error_code, reason⟩, buf.drop reason_len)

def PublishError.Wf (m : PublishError) : Prop :=
  m.request_id < 2 ^ 62 ∧ m.error_code < 2 ^ 62 ∧
    m.reason.length < 2 ^ 62 ∧ validUtf8 m.reason = true

/-- Modelled from the spec: `SUBSCRIBE_ANNOUNCES_ERROR`
(src/message/subscribe_announces_error.rs is absent from src/); §4.3
gives `V(request_id), V(error_code), S(reason)`. -/
structure SubscribeAnnouncesError where
  request_id : Nat
  error_code : Nat
  reason : List Nat
  deriving DecidableEq, Repr

def SubscribeAnnouncesError.encode (m : SubscribeAnnouncesError) :
    Except Error (List Nat) := do
  let b1 ← VarInt.encode m.request_id
  let b2 ← VarInt.encode m.error_code
  let lb ← VarInt.encode m.reason.length
  pure (b1 ++ b2 ++ lb ++ m.reason)

def SubscribeAnnouncesError.decode (buf : List Nat) :
    Except Error (SubscribeAnnouncesError × List Nat) :=
  match VarInt.decode buf with
  | none => .error (eofErr "request id")
  | some (request_id, buf) =>
    match VarInt.decode buf with
    | none => .error (eofErr "error code")
    | some (error_code, buf) =>
      match VarInt.decode buf with
      | none => .error (eofErr "reason length")
      | some (reason_len, buf) =>
        if buf.length < reason_len then .error (eofErr "reason")
        else do
          let reason ← fromUtf8 (buf.take reason_len)
          .ok (⟨request_id, error_code, reason⟩, buf.drop reason_len)

def SubscribeAnnouncesError.Wf (m : SubscribeAnnouncesError) : Prop :=
  m.request_id < 2 ^ 62 ∧ m.error_code < 2 ^ 62 ∧
    m.reason.length < 2 ^ 62 ∧ validUtf8 m.reason = true

/-- `SUBSCRIBE_DONE` payload (src/message/subscribe_done.rs): reason is
bounded by 8192 bytes at both encode and decode. -/
structure SubscribeDone where
  request_id : Nat
  status_code : Nat
  stream_count : Nat
  reason : List Nat
  deriving DecidableEq, Repr

def SubscribeDone.encode (m : SubscribeDone) : Except Error (List Nat) := do
  let b1 ← VarInt.encode m.request_id
  let b2 ← VarInt.encode m.status_code
  let b3 ← VarInt.encode m.stream_count
  if 8192 < m.reason.length then
    throw (invErr "reason too long")
  else do
    let lb ← VarInt.encode m.reason.length
    pure (b1 ++ b2 ++ b3 ++ lb ++ m.reason)

def SubscribeDone.decode (buf : List Nat) : Except Error (SubscribeDone × List Nat) :=
  match VarInt.decode buf with
  | none => .error (eofErr "request id")
  | some (request_id, buf) =>
    match VarInt.decode buf with
    | none => .error (eofErr "status code")
    | some (status_code, buf) =>
      match VarInt.decode buf with
      | none => .error (eofErr "stream count")
      | some (stream_count, buf) =>
        match VarInt.decode buf with
        | none => .error (eofErr "reason length")
        | some (reason_len, buf) =>
          if 8192 < reason_len then .error (invErr "reason too long")
          else if buf.length < reason_len then .error (eofErr "reason")
          else do
            let reason ← fromUtf8 (buf.take reason_len)
            .ok (⟨request_id, status_code, stream_count, reason⟩, buf.drop reason_len)

def SubscribeDone.Wf (m : SubscribeDone) : Prop :=
  m.request_id < 2 ^ 62 ∧ m.status_code < 2 ^ 62 ∧ m.stream_count < 2 ^ 62 ∧
    m.reason.length ≤ 8192 ∧ validUtf8 m.reason = true

/-- `UNSUBSCRIBE_ANNOUNCES` payload (src/message/unsubscribe_announces.rs).
The source field `track_name_prefix` is rendered `track_name_part`. -/
structure UnsubscribeAnnounces where
  track_namespace : Nat
  track_name_part : List Nat
  deriving DecidableEq, Repr

def UnsubscribeAnnounces.encode (m : UnsubscribeAnnounces) : Except Error (List Nat) := do
  let b1 ← VarInt.encode m.track_namespace
  let lb ← VarInt.encode m.track_name_part.length
  pure (b1 ++ lb ++ m.track_name_part)

def UnsubscribeAnnounces.decode (buf : List Nat) :
    Except Error (UnsubscribeAnnounces × List Nat) :=
  match VarInt.decode buf with
  | none => .error (eofErr "track namespace")
  | some (track_namespace, buf) =>
    match VarInt.decode buf with
    | none => .error (eofErr "track name prefix len")
    | some (len, buf) =>
      if buf.length < len then .error (eofErr "track name prefix")
      else do
        let part ← fromUtf8 (buf.take len)
        .ok (⟨track_namespace, part⟩, buf.drop len)

def UnsubscribeAnnounces.Wf (m : UnsubscribeAnnounces) : Prop :=
  m.track_namespace < 2 ^ 62 ∧ m.track_name_part.length < 2 ^ 62 ∧
    validUtf8 m.track_name_part = true

/-- The supported-versions encode loop of `ClientSetup::encode`
(src/message/client_setup.rs): each `u32` version as a varint. -/
def encodeVersions : List Nat → Except Error (List Nat)
  | [] => pure []
  | v :: vs => do
    let b ← VarInt.encode v
    let rest ← encodeVersions vs
    pure (b ++ rest)

/-- The matching decode loop: each version must fit in `u32`. -/
def decodeVersions : Nat → List Nat → Except Error (List Nat × List Nat)
  | 0, buf => .ok ([], buf)
  | n + 1, buf =>
    match VarInt.decode buf with
    | none => .error (eofErr "version")
    | some (v, buf) =>
      if 0xFFFFFFFF < v then .error .varIntRange
      else do
        let (vs, rest) ← decodeVersions n buf
        .ok (v :: vs, rest)

/-- The setup-parameter encode loop of `ClientSetup::encode`, which uses
`Parameter::encode` (even/odd split), unlike the raw loops elsewhere. -/
def encodeParamsSplit : List Parameter → Except Error (List Nat)
  | [] => pure []
  | p :: ps => do
    let b ← Parameter.encode p
    let rest ← encodeParamsSplit ps
    pure (b ++ rest)

/-- The matching decode loop using `Parameter::decode`. -/
def decodeParamsSplit : Nat → List Nat → Except Error (List Parameter × List Nat)
  | 0, buf => .ok ([], buf)
  | n + 1, buf => do
    let (p, buf) ← Parameter.decode buf
    let (ps, rest) ← decodeParamsSplit n buf
    .ok (p :: ps, rest)

/-- Validity of one setup parameter under the even/odd split: an even
type stores a complete 1–8-byte varint encoding (possibly non-canonical);
an odd type stores at most 0xFFFF opaque bytes. -/
def SetupParamWf (p : Parameter) : Prop :=
  p.parameter_type < 2 ^ 62 ∧
    (if p.parameter_type % 2 = 0 then ∃ w, VarInt.decode p.value = some (w, [])
     else p.value.length ≤ 0xFFFF ∧ ∀ b ∈ p.value, b < 256)

/-- The stored bytes of an even-type setup parameter are the canonical
(shortest) varint encoding of some value. -/
def SetupParamCanon (p : Parameter) : Prop :=
  p.parameter_type % 2 = 0 → ∃ w, w < 2 ^ 62 ∧ p.value = varIntEncodeBytes w

/-- `CLIENT_SETUP` payload (src/message/client_setup.rs). -/
structure ClientSetup where
  supported_versions : List Nat
  setup_parameters : List Parameter
  deriving DecidableEq, Repr

def ClientSetup.encode (m : ClientSetup) : Except Error (List Nat) := do
  let nv ← VarInt.encode m.supported_versions.length
  let vb ← encodeVersions m.supported_versions
  let np ← VarInt.encode m.setup_parameters.length
  let pb ← encodeParamsSplit m.setup_parameters
  pure (nv ++ vb ++ np ++ pb)

def ClientSetup.decode (buf : List Nat) : Except Error (ClientSetup × List Nat) :=
  match VarInt.decode buf with
  | none => .error (eofErr "versions")
  | some (versions_len, buf) => do
    let (versions, buf) ← decodeVersions versions_len buf
    match VarInt.decode buf with
    | none => .error (eofErr "parameters")
    | some (params_len, buf) => do
      let (parameters, rest) ← decodeParamsSplit params_len buf
      .ok (⟨versions, parameters⟩, rest)

def ClientSetup.Wf (m : ClientSetup) : Prop :=
  m.supported_versions.length < 2 ^ 62 ∧ (∀ v ∈ m.supported_versions, v ≤ 0xFFFFFFFF) ∧
    m.setup_parameters.length < 2 ^ 62 ∧ ∀ p ∈ m.setup_parameters, SetupParamWf p

/-- `SERVER_SETUP` payload (src/message/server_setup.rs): note that
unlike `ClientSetup` this encodes and decodes its parameters with the
raw `type, len, value` loop, not `Parameter::encode`. -/
structure ServerSetup where
  selected_version : Nat
  setup_parameters : List Parameter
  deriving DecidableEq, Repr

def ServerSetup.encode (m : ServerSetup) : Except Error (List Nat) := do
  let vb ← VarInt.encode m.selected_version
  let np ← VarInt.encode m.setup_parameters.length
  let pb ← encodeParamsRaw m.setup_parameters
  pure (vb ++ np ++ pb)

def ServerSetup.decode (buf : List Nat) : Except Error (ServerSetup × List Nat) :=
  match VarInt.decode buf with
  | none => .error (eofErr "version")
  | some (version, buf) =>
    if 0xFFFFFFFF < version then .error .varIntRange
    else
      match VarInt.decode buf with
      | none => .error (eofErr "parameters")
      | some (params_len, buf) => do
        let (parameters, rest) ← decodeParamsRaw params_len buf
        .ok (⟨version, parameters⟩, rest)

def ServerSetup.Wf (m : ServerSetup) : Prop :=
  m.selected_version ≤ 0xFFFFFFFF ∧ m.setup_parameters.length < 2 ^ 62 ∧
    ParamsWf m.setup_parameters

/-- `TRACK_STATUS_REQUEST` payload (src/message/track_status_request.rs). -/
structure TrackStatusRequest where
  request_id : Nat
  track_namespace : Nat
  track_name : List Nat
  parameters : List Parameter
  deriving DecidableEq, Repr

def TrackStatusRequest.encode (m : TrackStatusRequest) : Except Error (List Nat) := do
  let b1 ← VarInt.encode m.request_id
  let b2 ← VarInt.encode m.track_namespace
  let lb ← VarInt.encode m.track_name.length
  let np ← VarInt.encode m.parameters.length
  let pb ← encodeParamsRaw m.parameters
  pure (b1 ++ b2 ++ lb ++ m.track_name ++ np ++ pb)

def TrackStatusRequest.decode (buf : List Nat) :
    Except Error (TrackStatusRequest × List Nat) :=
  match VarInt.decode buf with
  | none => .error (eofErr "request id")
  | some (request_id, buf) =>
    match VarInt.decode buf with
    | none => .error (eofErr "track namespace")
    | some (track_namespace, buf) =>
      match VarInt.decode buf with
      | none => .error (eofErr "track name len")
      | some (name_len, buf) =>
        if buf.length < name_len then .error (eofErr "track name")
        else do
          let track_name ← fromUtf8 (buf.take name_len)
          let buf := buf.drop name_len
          match VarInt.decode buf with
          | none => .error (eofErr "parameters len")
          | some (params_len, buf) => do
            let (parameters, rest) ← decodeParamsRaw params_len buf
            .ok (⟨request_id, track_namespace, track_name, parameters⟩, rest)

def TrackStatusRequest.Wf (m : TrackStatusRequest) : Prop :=
  m.request_id < 2 ^ 62 ∧ m.track_namespace < 2 ^ 62 ∧
    m.track_name.length < 2 ^ 62 ∧ validUtf8 m.track_name = true ∧
    m.parameters.length < 2 ^ 62 ∧ ParamsWf m.parameters

/-- `TRACK_STATUS` payload (src/message/track_status.rs): status codes
0–4; codes 1 and 2 force a zero largest location and no parameters,
checked at both encode and decode. -/
structure TrackStatus where
  request_id : Nat
  status_code : Nat
  largest_location : Location
  parameters : List Parameter
  deriving DecidableEq, Repr

def TrackStatus.encode (m : TrackStatus) : Except Error (List Nat) := do
  if 4 < m.status_code then
    throw (invErr "invalid status code")
  else if (m.status_code = 1 ∨ m.status_code = 2) ∧
      (m.largest_location.group ≠ 0 ∨ m.largest_location.object ≠ 0) then
    throw (invErr "largest location must be zero")
  else if (m.status_code = 1 ∨ m.status_code = 2) ∧ m.parameters ≠ [] then
    throw (invErr "parameters must be empty")
  else do
    let b1 ← VarInt.encode m.request_id
    let b2 ← VarInt.encode m.status_code
    let lb ← Location.encode m.largest_location
    let np ← VarInt.encode m.parameters.length
    let pb ← encodeParamsRaw m.parameters
    pure (b1 ++ b2 ++ lb ++ np ++ pb)

def TrackStatus.decode (buf : List Nat) : Except Error (TrackStatus × List Nat) :=
  match VarInt.decode buf with
  | none => .error (eofErr "request id")
  | some (request_id, buf) =>
    match VarInt.decode buf with
    | none => .error (eofErr "status code")
    | some (status_code, buf) =>
      if 4 < status_code then .error (invErr "invalid status code")
      else do
        let (largest_location, buf) ← Location.decode buf
        match VarInt.decode buf with
        | none => .error (eofErr "parameters len")
        | some (params_len, buf) => do
          let (parameters, rest) ← decodeParamsRaw params_len buf
          if (status_code = 1 ∨ status_code = 2) ∧
              (largest_location.group ≠ 0 ∨ largest_location.object ≠ 0) then
            throw (invErr "largest location must be zero")
          else if (status_code = 1 ∨ status_code = 2) ∧ parameters ≠ [] then
            throw (invErr "parameters must be empty")
          else
            .ok (⟨request_id, status_code, largest_location, parameters⟩, rest)

def TrackStatus.Wf (m : TrackStatus) : Prop :=
  m.request_id < 2 ^ 62 ∧ m.status_code ≤ 4 ∧
    m.largest_location.group < 2 ^ 62 ∧ m.largest_location.object < 2 ^ 62 ∧
    m.parameters.length < 2 ^ 62 ∧ ParamsWf m.parameters ∧
    ((m.status_code = 1 ∨ m.status_code = 2) →
      m.largest_location = ⟨0, 0⟩ ∧ m.parameters = [])

/-- `SUBSCRIBE_UPDATE` payload (src/message/subscribe_update.rs). -/
structure SubscribeUpdate where
  request_id : Nat
  start_location : Location
  end_group : Nat
  subscriber_priority : Nat
  forward : Nat
  parameters : List Parameter
  deriving DecidableEq, Repr

def SubscribeUpdate.encode (m : SubscribeUpdate) : Except Error (List Nat) := do
  let b1 ← VarInt.encode m.request_id
  let lb ← Location.encode m.start_location
  let b2 ← VarInt.encode m.end_group
  if m.forward ≠ 0 ∧ m.forward ≠ 1 then
    throw (invErr "invalid forward value")
  else do
    let np ← VarInt.encode m.parameters.length
    let pb ← encodeParamsRaw m.parameters
    pure (b1 ++ lb ++ b2 ++ [m.subscriber_priority] ++ [m.forward] ++ np ++ pb)

def SubscribeUpdate.decode (buf : List Nat) : Except Error (SubscribeUpdate × List Nat) :=
  match VarInt.decode buf with
  | none => .error (eofErr "request id")
  | some (request_id, buf) => do
    let (start_location, buf) ← Location.decode buf
    match VarInt.decode buf with
    | none => .error (eofErr "end group")
    | some (end_group, buf) =>
      match buf with
      | subscriber_priority :: forward_byte :: buf =>
        if forward_byte ≠ 0 ∧ forward_byte ≠ 1 then
          .error (invErr "invalid forward value")
        else
          match VarInt.decode buf with
          | none => .error (eofErr "parameters len")
          | some (params_len, buf) => do
            let (parameters, rest) ← decodeParamsRaw params_len buf
            .ok (⟨request_id, start_location, end_group, subscriber_priority,
              forward_byte, parameters⟩, rest)
      | _ => .error (eofErr "flags")

def SubscribeUpdate.Wf (m : SubscribeUpdate) : Prop :=
  m.request_id < 2 ^ 62 ∧ m.start_location.group < 2 ^ 62 ∧
    m.start_location.object < 2 ^ 62 ∧ m.end_group < 2 ^ 62 ∧
    m.subscriber_priority < 256 ∧ (m.forward = 0 ∨ m.forward = 1) ∧
    m.parameters.length < 2 ^ 62 ∧ ParamsWf m.parameters

/-- The namespace-part encode loop of `SubscribeAnnounces::encode`
(src/message/subscribe_announces.rs): each part length-prefixed. -/
def encodeNsParts : List (List Nat) → Except Error (List Nat)
  | [] => pure []
  | part :: rest => do
    let lb ← VarInt.encode part.length
    let r ← encodeNsParts rest
    pure (lb ++ part ++ r)

/-- The matching decode loop with UTF-8 validation per part. -/
def decodeNsParts : Nat → List Nat → Except Error (List (List Nat) × List Nat)
  | 0, buf => .ok ([], buf)
  | n + 1, buf =>
    match VarInt.decode buf with
    | none => .error (eofErr "part len")
    | some (part_len, buf) =>
      if buf.length < part_len then .error (eofErr "part")
      else do
        let part ← fromUtf8 (buf.take part_len)
        let (parts, rest) ← decodeNsParts n (buf.drop part_len)
        .ok (part :: parts, rest)

/-- Validity of a namespace-part list. -/
def NsPartsWf (parts : List (List Nat)) : Prop :=
  ∀ part ∈ parts, part.length < 2 ^ 62 ∧ validUtf8 part = true

/-- `SUBSCRIBE_ANNOUNCES` payload (src/message/subscribe_announces.rs).
The source field `track_namespace_prefix` is rendered
`track_namespace_parts`; between 1 and 32 parts are allowed. -/
structure SubscribeAnnounces where
  request_id : Nat
  track_namespace_parts : List (List Nat)
  parameters : List Parameter
  deriving DecidableEq, Repr

def SubscribeAnnounces.encode (m : SubscribeAnnounces) : Except Error (List Nat) := do
  if m.track_namespace_parts.isEmpty || 32 < m.track_namespace_parts.length then
    throw (invErr "invalid prefix length")
  else do
    let b1 ← VarInt.encode m.request_id
    let nc ← VarInt.encode m.track_namespace_parts.length
    let cb ← encodeNsParts m.track_namespace_parts
    let np ← VarInt.encode m.parameters.length
    let pb ← encodeParamsRaw m.parameters
    pure (b1 ++ nc ++ cb ++ np ++ pb)

def SubscribeAnnounces.decode (buf : List Nat) :
    Except Error (SubscribeAnnounces × List Nat) :=
  match VarInt.decode buf with
  | none => .error (eofErr "request id")
  | some (request_id, buf) =>
    match VarInt.decode buf with
    | none => .error (eofErr "prefix len")
    | some (count, buf) =>
      if count = 0 ∨ 32 < count then .error (invErr "invalid prefix length")
      else do
        let (parts, buf) ← decodeNsParts count buf
        match VarInt.decode buf with
        | none => .error (eofErr "parameters len")
        | some (params_len, buf) => do
          let (parameters, rest) ← decodeParamsRaw params_len buf
          .ok (⟨request_id, parts, parameters⟩, rest)

def SubscribeAnnounces.Wf (m : SubscribeAnnounces) : Prop :=
  m.request_id < 2 ^ 62 ∧ 1 ≤ m.track_namespace_parts.length ∧
    m.track_namespace_parts.length ≤ 32 ∧ NsPartsWf m.track_namespace_parts ∧
    m.parameters.length < 2 ^ 62 ∧ ParamsWf m.parameters

/-- Modelled from the spec: `ANNOUNCE` (src/message/announce.rs is absent
from src/); §4.3 says only "namespace tuple + parameters", so the payload
is a length-prefixed namespace-part tuple followed by a raw parameter
list, written with the same loops as the present sibling messages. -/
structure Announce where
  track_namespace_parts : List (List Nat)
  parameters : List Parameter
  deriving DecidableEq, Repr

def Announce.encode (m : Announce) : Except Error (List Nat) := do
  let nc ← VarInt.encode m.track_namespace_parts.length
  let cb ← encodeNsParts m.track_namespace_parts
  let np ← VarInt.encode m.parameters.length
  let pb ← encodeParamsRaw m.parameters
  pure (nc ++ cb ++ np ++ pb)

def Announce.decode (buf : List Nat) : Except Error (Announce × List Nat) :=
  match VarInt.decode buf with
  | none => .error (eofErr "namespace len")
  | some (count, buf) => do
    let (parts, buf) ← decodeNsParts count buf
    match VarInt.decode buf with
    | none => .error (eofErr "parameters len")
    | some (params_len, buf) => do
      let (parameters, rest) ← decodeParamsRaw params_len buf
      .ok (⟨parts, parameters⟩, rest)

def Announce.Wf (m : Announce) : Prop :=
  m.track_namespace_parts.length < 2 ^ 62 ∧ NsPartsWf m.track_namespace_parts ∧
    m.parameters.length < 2 ^ 62 ∧ ParamsWf m.parameters

/-- `SUBSCRIBE` payload (src/message/subscribe.rs): filter types 1–4;
a start location accompanies filters 3 and 4, an end group filter 4. -/
structure Subscribe where
  request_id : Nat
  track_namespace : Nat
  track_name : List Nat
  subscriber_priority : Nat
  group_order : Nat
  forward : Nat
  filter_type : Nat
  start_location : Option Location
  end_group : Option Nat
  parameters : List Parameter
  deriving DecidableEq, Repr

def Subscribe.encode (m : Subscribe) : Except Error (List Nat) := do
  let b1 ← VarInt.encode m.request_id
  let b2 ← VarInt.encode m.track_namespace
  let lb ← VarInt.encode m.track_name.length
  if 2 < m.group_order then
    throw (invErr "invalid group order")
  else if m.forward ≠ 0 ∧ m.forward ≠ 1 then
    throw (invErr "invalid forward value")
  else if ¬(m.filter_type = 1 ∨ m.filter_type = 2 ∨ m.filter_type = 3 ∨ m.filter_type = 4) then
    throw (invErr "invalid filter type")
  else do
    let fb ← VarInt.encode m.filter_type
    let sb ← (if m.filter_type = 3 ∨ m.filter_type = 4 then
        match m.start_location with
        | some loc => Location.encode loc
        | none => throw (invErr "missing start location")
      else pure [])
    let eb ← (if m.filter_type = 4 then
        match m.end_group with
        | some e => VarInt.encode e
        | none => throw (invErr "missing end group")
      else pure [])
    let np ← VarInt.encode m.parameters.length
    let pb ← encodeParamsRaw m.parameters
    pure (b1 ++ b2 ++ lb ++ m.track_name ++ [m.subscriber_priority] ++ [m.group_order] ++
      [m.forward] ++ fb ++ sb ++ eb ++ np ++ pb)

def Subscribe.decode (buf : List Nat) : Except Error (Subscribe × List Nat) :=
  match VarInt.decode buf with
  | none => .error (eofErr "request id")
  | some (request_id, buf) =>
    match VarInt.decode buf with
    | none => .error (eofErr "track namespace")
    | some (track_namespace, buf) =>
      match VarInt.decode buf with
      | none => .error (eofErr "track name len")
      | some (name_len, buf) =>
        if buf.length < name_len then .error (eofErr "track name")
        else do
          let track_name ← fromUtf8 (buf.take name_len)
          match buf.drop name_len with
          | subscriber_priority :: group_order :: forward :: buf =>
            if 2 < group_order then .error (invErr "invalid group order")
            else if forward ≠ 0 ∧ forward ≠ 1 then .error (invErr "invalid forward value")
            else
              match VarInt.decode buf with
              | none => .error (eofErr "filter type")
              | some (filter_type, buf) =>
                if ¬(filter_type = 1 ∨ filter_type = 2 ∨ filter_type = 3 ∨ filter_type = 4) then
                  .error (invErr "invalid filter type")
                else do
                  let (start_location, buf) ←
                    (if filter_type = 3 ∨ filter_type = 4 then do
                        let (loc, buf) ← Location.decode buf
                        pure (some loc, buf)
                      else pure ((none : Option Location), buf))
                  let (end_group, buf) ←
                    (if filter_type = 4 then
                        match VarInt.decode buf with
                        | none => .error (eofErr "end group")
                        | some (e, buf) => pure (some e, buf)
                      else pure ((none : Option Nat), buf))
                  match VarInt.decode buf with
                  | none => .error (eofErr "parameters len")
                  | some (params_len, buf) => do
                    let (parameters, rest) ← decodeParamsRaw params_len buf
                    .ok (⟨request_id, track_namespace, track_name, subscriber_priority,
                      group_order, forward, filter_type, start_location, end_group,
                      parameters⟩, rest)
          | _ => .error (eofErr "flags")

def Subscribe.Wf (m : Subscribe) : Prop :=
  m.request_id < 2 ^ 62 ∧ m.track_namespace < 2 ^ 62 ∧
    m.track_name.length < 2 ^ 62 ∧ validUtf8 m.track_name = true ∧
    m.subscriber_priority < 256 ∧ m.group_order ≤ 2 ∧
    (m.forward = 0 ∨ m.forward = 1) ∧
    (m.filter_type = 1 ∨ m.filter_type = 2 ∨ m.filter_type = 3 ∨ m.filter_type = 4) ∧
    (match m.start_location with
     | some loc =>
       (m.filter_type = 3 ∨ m.filter_type = 4) ∧ loc.group < 2 ^ 62 ∧ loc.object < 2 ^ 62
     | none => m.filter_type = 1 ∨ m.filter_type = 2) ∧
    (match m.end_group with
     | some e => m.filter_type = 4 ∧ e < 2 ^ 62
     | none => m.filter_type ≠ 4) ∧
    m.parameters.length < 2 ^ 62 ∧ ParamsWf m.parameters

/-- `SUBSCRIBE_OK` payload (src/message/subscribe_ok.rs): group order in
{1,2}; a largest location accompanies `content_exists = true`. -/
structure SubscribeOk where
  request_id : Nat
  track_alias : Nat
  expires : Nat
  group_order : Nat
  content_exists : Bool
  largest_location : Option Location
  parameters : List Parameter
  deriving DecidableEq, Repr

def SubscribeOk.encode (m : SubscribeOk) : Except Error (List Nat) := do
  let b1 ← VarInt.encode m.request_id
  let b2 ← VarInt.encode m.track_alias
  let b3 ← VarInt.encode m.expires
  if m.group_order = 0 ∨ 2 < m.group_order then
    throw (invErr "invalid group order")
  else do
    let cb ← (if m.content_exists then
        match m.largest_location with
        | some loc => Location.encode loc
        | none => throw (invErr "missing largest location")
      else pure [])
    let np ← VarInt.encode m.parameters.length
    let pb ← encodeParamsRaw m.parameters
    pure (b1 ++ b2 ++ b3 ++ [m.group_order] ++ [if m.content_exists then 1 else 0] ++
      cb ++ np ++ pb)

def SubscribeOk.decode (buf : List Nat) : Except Error (SubscribeOk × List Nat) :=
  match VarInt.decode buf with
  | none => .error (eofErr "request id")
  | some (request_id, buf) =>
    match VarInt.decode buf with
    | none => .error (eofErr "track alias")
    | some (track_alias, buf) =>
      match VarInt.decode buf with
      | none => .error (eofErr "expires")
      | some (expires, buf) =>
        match buf with
        | group_order :: content_exists_byte :: buf =>
          if group_order = 0 ∨ 2 < group_order then .error (invErr "invalid group order")
          else if content_exists_byte ≠ 0 ∧ content_exists_byte ≠ 1 then
            .error (invErr "invalid content exists value")
          else do
            let content_exists := content_exists_byte = 1
            let (largest_location, buf) ←
              (if content_exists then do
                  let (loc, buf) ← Location.decode buf
                  pure (some loc, buf)
                else pure ((none : Option Location), buf))
            match VarInt.decode buf with
            | none => .error (eofErr "parameters len")
            | some (params_len, buf) => do
              let (parameters, rest) ← decodeParamsRaw params_len buf
              .ok (⟨request_id, track_alias, expires, group_order, content_exists,
                largest_location, parameters⟩, rest)
        | _ => .error (eofErr "flags")

def SubscribeOk.Wf (m : SubscribeOk) : Prop :=
  m.request_id < 2 ^ 62 ∧ m.track_alias < 2 ^ 62 ∧ m.expires < 2 ^ 62 ∧
    (m.group_order = 1 ∨ m.group_order = 2) ∧
    (match m.largest_location with
     | some loc => m.content_exists = true ∧ loc.group < 2 ^ 62 ∧ loc.object < 2 ^ 62
     | none => m.content_exists = false) ∧
    m.parameters.length < 2 ^ 62 ∧ ParamsWf m.parameters

/-- `PUBLISH` payload (src/message/publish.rs): `content_exists` is a
`u8` flag governing the largest location; `forward` is validated only
at decode. -/
structure Publish where
  request_id : Nat
  track_namespace : Nat
  track_name : List Nat
  track_alias : Nat
  group_order : Nat
  content_exists : Nat
  largest : Option Location
  forward : Nat
  parameters : List Parameter
  deriving DecidableEq, Repr

def Publish.encode (m : Publish) : Except Error (List Nat) := do
  let b1 ← VarInt.encode m.request_id
  let b2 ← VarInt.encode m.track_namespace
  let lb ← VarInt.encode m.track_name.length
  let b3 ← VarInt.encode m.track_alias
  if m.group_order = 0 ∨ 2 < m.group_order then
    throw (invErr "invalid group order")
  else if m.content_exists ≠ 0 ∧ m.content_exists ≠ 1 then
    throw (invErr "invalid content exists value")
  else do
    let cb ← (if m.content_exists = 1 then
        match m.largest with
        | some loc => Location.encode loc
        | none => throw (invErr "missing largest location")
      else pure [])
    let np ← VarInt.encode m.parameters.length
    let pb ← encodeParamsRaw m.parameters
    pure (b1 ++ b2 ++ lb ++ m.track_name ++ b3 ++ [m.group_order] ++ [m.content_exists] ++
      cb ++ [m.forward] ++ np ++ pb)

def Publish.decode (buf : List Nat) : Except Error (Publish × List Nat) :=
  match VarInt.decode buf with
  | none => .error (eofErr "request id")
  | some (request_id, buf) =>
    match VarInt.decode buf with
    | none => .error (eofErr "track namespace")
    | some (track_namespace, buf) =>
      match VarInt.decode buf with
      | none => .error (eofErr "track name len")
      | some (name_len, buf) =>
        if buf.length < name_len then .error (eofErr "track name")
        else do
          let track_name ← fromUtf8 (buf.take name_len)
          match VarInt.decode (buf.drop name_len) with
          | none => .error (eofErr "track alias")
          | some (track_alias, buf) =>
            match buf with
            | group_order :: content_exists :: buf =>
              if group_order = 0 ∨ 2 < group_order then
                .error (invErr "invalid group order")
              else if content_exists ≠ 0 ∧ content_exists ≠ 1 then
                .error (invErr "invalid content exists value")
              else do
                let (largest, buf) ←
                  (if content_exists = 1 then do
                      let (loc, buf) ← Location.decode buf
                      pure (some loc, buf)
                    else pure ((none : Option Location), buf))
                match buf with
                | forward :: buf =>
                  if forward ≠ 0 ∧ forward ≠ 1 then
                    .error (invErr "invalid forward value")
                  else
                    match VarInt.decode buf with
                    | none => .error (eofErr "parameters len")
                    | some (params_len, buf) => do
                      let (parameters, rest) ← decodeParamsRaw params_len buf
                      .ok (⟨request_id, track_namespace, track_name, track_alias,
                        group_order, content_exists, largest, forward, parameters⟩, rest)
                | _ => .error (eofErr "forward")
            | _ => .error (eofErr "flags")

def Publish.Wf (m : Publish) : Prop :=
  m.request_id < 2 ^ 62 ∧ m.track_namespace < 2 ^ 62 ∧
    m.track_name.length < 2 ^ 62 ∧ validUtf8 m.track_name = true ∧
    m.track_alias < 2 ^ 62 ∧ (m.group_order = 1 ∨ m.group_order = 2) ∧
    (m.content_exists = 0 ∨ m.content_exists = 1) ∧
    (match m.largest with
     | some loc => m.content_exists = 1 ∧ loc.group < 2 ^ 62 ∧ loc.object < 2 ^ 62
     | none => m.content_exists = 0) ∧
    (m.forward = 0 ∨ m.forward = 1) ∧
    m.parameters.length < 2 ^ 62 ∧ ParamsWf m.parameters

/-- `PUBLISH_OK` payload (src/message/publish_ok.rs): same filter-type
grammar as SUBSCRIBE, group order in {1,2}. -/
structure PublishOk where
  request_id : Nat
  forward : Nat
  subscriber_priority : Nat
  group_order : Nat
  filter_type : Nat
  start : Option Location
  end_group : Option Nat
  parameters : List Parameter
  deriving DecidableEq, Repr

def PublishOk.encode (m : PublishOk) : Except Error (List Nat) := do
  let b1 ← VarInt.encode m.request_id
  if m.forward ≠ 0 ∧ m.forward ≠ 1 then
    throw (invErr "invalid forward value")
  else if m.group_order = 0 ∨ 2 < m.group_order then
    throw (invErr "invalid group order")
  else if ¬(m.filter_type = 1 ∨ m.filter_type = 2 ∨ m.filter_type = 3 ∨ m.filter_type = 4) then
    throw (invErr "invalid filter type")
  else do
    let fb ← VarInt.encode m.filter_type
    let sb ← (if m.filter_type = 3 ∨ m.filter_type = 4 then
        match m.start with
        | some loc => Location.encode loc
        | none => throw (invErr "missing start location")
      else pure [])
    let eb ← (if m.filter_type = 4 then
        match m.end_group with
        | some e => VarInt.encode e
        | none => throw (invErr "missing end group")
      else pure [])
    let np ← VarInt.encode m.parameters.length
    let pb ← encodeParamsRaw m.parameters
    pure (b1 ++ [m.forward] ++ [m.subscriber_priority] ++ [m.group_order] ++ fb ++ sb ++
      eb ++ np ++ pb)

def PublishOk.decode (buf : List Nat) : Except Error (PublishOk × List Nat) :=
  match VarInt.decode buf with
  | none => .error (eofErr "request id")
  | some (request_id, buf) =>
    match buf with
    | forward :: subscriber_priority :: group_order :: buf =>
      if forward ≠ 0 ∧ forward ≠ 1 then .error (invErr "invalid forward value")
      else if group_order = 0 ∨ 2 < group_order then .error (invErr "invalid group order")
      else
        match VarInt.decode buf with
        | none => .error (eofErr "filter type")
        | some (filter_type, buf) =>
          if ¬(filter_type = 1 ∨ filter_type = 2 ∨ filter_type = 3 ∨ filter_type = 4) then
            .error (invErr "invalid filter type")
          else do
            let (start, buf) ←
              (if filter_type = 3 ∨ filter_type = 4 then do
                  let (loc, buf) ← Location.decode buf
                  pure (some loc, buf)
                else pure ((none : Option Location), buf))
            let (end_group, buf) ←
              (if filter_type = 4 then
                  match VarInt.decode buf with
                  | none => .error (eofErr "end group")
                  | some (e, buf) => pure (some e, buf)
                else pure ((none : Option Nat), buf))
            match VarInt.decode buf with
            | none => .error (eofErr "parameters len")
            | some (params_len, buf) => do
              let (parameters, rest) ← decodeParamsRaw params_len buf
              .ok (⟨request_id, forward, subscriber_priority, group_order, filter_type,
                start, end_group, parameters⟩, rest)
    | _ => .error (eofErr "flags")

def PublishOk.Wf (m : PublishOk) : Prop :=
  m.request_id < 2 ^ 62 ∧ (m.forward = 0 ∨ m.forward = 1) ∧
    m.subscriber_priority < 256 ∧ (m.group_order = 1 ∨ m.group_order = 2) ∧
    (m.filter_type = 1 ∨ m.filter_type = 2 ∨ m.filter_type = 3 ∨ m.filter_type = 4) ∧
    (match m.start with
     | some loc =>
       (m.filter_type = 3 ∨ m.filter_type = 4) ∧ loc.group < 2 ^ 62 ∧ loc.object < 2 ^ 62
     | none => m.filter_type = 1 ∨ m.filter_type = 2) ∧
    (match m.end_group with
     | some e => m.filter_type = 4 ∧ e < 2 ^ 62
     | none => m.filter_type ≠ 4) ∧
    m.parameters.length < 2 ^ 62 ∧ ParamsWf m.parameters

/-- `FETCH` payload (src/message/fetch.rs): fetch type 1 carries
namespace, name and a location range; types 2 and 3 carry joining
request id and start. -/
structure Fetch where
  request_id : Nat
  subscriber_priority : Nat
  group_order : Nat
  fetch_type : Nat
  track_namespace : Option Nat
  track_name : Option (List Nat)
  start_location : Option Location
  end_location : Option Location
  joining_request_id : Option Nat
  joining_start : Option Nat
  parameters : List Parameter
  deriving DecidableEq, Repr

def Fetch.encode (m : Fetch) : Except Error (List Nat) := do
  let b1 ← VarInt.encode m.request_id
  if 2 < m.group_order then
    throw (invErr "invalid group order")
  else do
    let fb ← VarInt.encode m.fetch_type
    let mid ←
      (if m.fetch_type = 1 then
        match m.track_namespace, m.track_name, m.start_location, m.end_location with
        | some ns, some name, some start, some end_loc => do
          let nb ← VarInt.encode ns
          let lb ← VarInt.encode name.length
          let sb ← Location.encode start
          let eb ← Location.encode end_loc
          pure (nb ++ lb ++ name ++ sb ++ eb)
        | none, _, _, _ => throw (invErr "missing track namespace")
        | some _, none, _, _ => throw (invErr "missing track name")
        | some _, some _, none, _ => throw (invErr "missing start location")
        | some _, some _, some _, none => throw (invErr "missing end location")
      else if m.fetch_type = 2 ∨ m.fetch_type = 3 then
        match m.joining_request_id, m.joining_start with
        | some jr, some js => do
          let jb ← VarInt.encode jr
          let sb ← VarInt.encode js
          pure (jb ++ sb)
        | none, _ => throw (invErr "missing joining request id")
        | some _, none => throw (invErr "missing joining start")
      else throw (invErr "invalid fetch type"))
    let np ← VarInt.encode m.parameters.length
    let pb ← encodeParamsRaw m.parameters
    pure (b1 ++ [m.subscriber_priority] ++ [m.group_order] ++ fb ++ mid ++ np ++ pb)

def Fetch.decode (buf : List Nat) : Except Error (Fetch × List Nat) :=
  match VarInt.decode buf with
  | none => .error (eofErr "request id")
  | some (request_id, buf) =>
    match buf with
    | subscriber_priority :: group_order :: buf =>
      if 2 < group_order then .error (invErr "invalid group order")
      else
        match VarInt.decode buf with
        | none => .error (eofErr "fetch type")
        | some (fetch_type, buf) => do
          let (track_namespace, track_name, start_location, end_location,
              joining_request_id, joining_start, buf) ←
            (if fetch_type = 1 then
              match VarInt.decode buf with
              | none => .error (eofErr "track namespace")
              | some (ns, buf) =>
                match VarInt.decode buf with
                | none => .error (eofErr "track name len")
                | some (name_len, buf) =>
                  if buf.length < name_len then .error (eofErr "track name")
                  else do
                    let name ← fromUtf8 (buf.take name_len)
                    let (start, buf) ← Location.decode (buf.drop name_len)
                    let (end_loc, buf) ← Location.decode buf
                    pure (some ns, some name, some start, some end_loc,
                      (none : Option Nat), (none : Option Nat), buf)
            else if fetch_type = 2 ∨ fetch_type = 3 then
              match VarInt.decode buf with
              | none => .error (eofErr "joining request id")
              | some (jr, buf) =>
                match VarInt.decode buf with
                | none => .error (eofErr "joining start")
                | some (js, buf) =>
                  pure ((none : Option Nat), (none : Option (List Nat)),
                    (none : Option Location), (none : Option Location),
                    some jr, some js, buf)
            else .error (invErr "invalid fetch type"))
          match VarInt.decode buf with
          | none => .error (eofErr "parameters len")
          | some (params_len, buf) => do
            let (parameters, rest) ← decodeParamsRaw params_len buf
            .ok (⟨request_id, subscriber_priority, group_order, fetch_type,
              track_namespace, track_name, start_location, end_location,
              joining_request_id, joining_start, parameters⟩, rest)
    | _ => .error (eofErr "flags")

def Fetch.Wf (m : Fetch) : Prop :=
  m.request_id < 2 ^ 62 ∧ m.subscriber_priority < 256 ∧ m.group_order ≤ 2 ∧
    (m.fetch_type = 1 ∨ m.fetch_type = 2 ∨ m.fetch_type = 3) ∧ m.fetch_type < 2 ^ 62 ∧
    (if m.fetch_type = 1 then
      (match m.track_namespace, m.track_name, m.start_location, m.end_location with
       | some ns, some name, some start, some end_loc =>
         ns < 2 ^ 62 ∧ name.length < 2 ^ 62 ∧ validUtf8 name = true ∧
           start.group < 2 ^ 62 ∧ start.object < 2 ^ 62 ∧
           end_loc.group < 2 ^ 62 ∧ end_loc.object < 2 ^ 62
       | _, _, _, _ => False) ∧
        m.joining_request_id = none ∧ m.joining_start = none
    else
      (match m.joining_request_id, m.joining_start with
       | some jr, some js => jr < 2 ^ 62 ∧ js < 2 ^ 62
       | _, _ => False) ∧
        m.track_namespace = none ∧ m.track_name = none ∧
        m.start_location = none ∧ m.end_location = none) ∧
    m.parameters.length < 2 ^ 62 ∧ ParamsWf m.parameters

/-- `FETCH_OK` payload (src/message/fetch_ok.rs): group order is written
unchecked but must be 1 or 2 to decode; `end_of_track` is a boolean
byte. -/
structure FetchOk where
  request_id : Nat
  group_order : Nat
  end_of_track : Bool
  end_location : Location
  parameters : List Parameter
  deriving DecidableEq, Repr

def FetchOk.encode (m : FetchOk) : Except Error (List Nat) := do
  let b1 ← VarInt.encode m.request_id
  let lb ← Location.encode m.end_location
  let np ← VarInt.encode m.parameters.length
  let pb ← encodeParamsRaw m.parameters
  pure (b1 ++ [m.group_order] ++ [if m.end_of_track then 1 else 0] ++ lb ++ np ++ pb)

def FetchOk.decode (buf : List Nat) : Except Error (FetchOk × List Nat) :=
  match VarInt.decode buf with
  | none => .error (eofErr "request id")
  | some (request_id, buf) =>
    match buf with
    | group_order_byte :: end_of_track_byte :: buf =>
      if group_order_byte = 0 ∨ 2 < group_order_byte then
        .error (invErr "invalid group order")
      else if end_of_track_byte ≠ 0 ∧ end_of_track_byte ≠ 1 then
        .error (invErr "invalid end of track value")
      else do
        let (end_location, buf) ← Location.decode buf
        match VarInt.decode buf with
        | none => .error (eofErr "parameters len")
        | some (params_len, buf) => do
          let (parameters, rest) ← decodeParamsRaw params_len buf
          .ok (⟨request_id, group_order_byte, end_of_track_byte = 1, end_location,
            parameters⟩, rest)
    | _ => .error (eofErr "flags")

def FetchOk.Wf (m : FetchOk) : Prop :=
  m.request_id < 2 ^ 62 ∧ (m.group_order = 1 ∨ m.group_order = 2) ∧
    m.end_location.group < 2 ^ 62 ∧ m.end_location.object < 2 ^ 62 ∧
    m.parameters.length < 2 ^ 62 ∧ ParamsWf m.parameters

/-- `message::ControlMessage` (src/message.rs): the tagged union over
all 29 control messages. -/
inductive ControlMessage where
  | clientSetup (msg : ClientSetup)
  | serverSetup (msg : ServerSetup)
  | goaway (msg : Goaway)
  | maxRequestId (msg : MaxRequestId)
  | requestsBlocked (msg : RequestsBlocked)
  | subscribe (msg : Subscribe)
  | subscribeOk (msg : SubscribeOk)
  | subscribeError (msg : SubscribeError)
  | subscribeUpdate (msg : SubscribeUpdate)
  | unsubscribe (msg : Unsubscribe)
  | subscribeDone (msg : SubscribeDone)
  | publish (msg : Publish)
  | publishOk (msg : PublishOk)
  | publishError (msg : PublishError)
  | fetch (msg : Fetch)
  | fetchOk (msg : FetchOk)
  | fetchError (msg : FetchError)
  | fetchCancel (msg : FetchCancel)
  | trackStatusRequest (msg : TrackStatusRequest)
  | trackStatus (msg : TrackStatus)
  | announce (msg : Announce)
  | announceOk (msg : AnnounceOk)
  | announceError (msg : AnnounceError)
  | unannounce (msg : Unannounce)
  | announceCancel (msg : AnnounceCancel)
  | subscribeAnnounces (msg : SubscribeAnnounces)
  | subscribeAnnouncesOk (msg : SubscribeAnnouncesOk)
  | subscribeAnnouncesError (msg : SubscribeAnnouncesError)
  | unsubscribeAnnounces (msg : UnsubscribeAnnounces)
  deriving DecidableEq, Repr

/-- `message::ControlMessageType` (src/message.rs). -/
inductive ControlMessageType where
  | clientSetup
  | serverSetup
  | goaway
  | maxRequestId
  | requestsBlocked
  | subscribe
  | subscribeOk
  | subscribeError
  | subscribeUpdate
  | unsubscribe
  | subscribeDone
  | publish
  | publishOk
  | publishError
  | fetch
  | fetchOk
  | fetchError
  | fetchCancel
  | trackStatusRequest
  | trackStatus
  | announce
  | announceOk
  | announceError
  | unannounce
  | announceCancel
  | subscribeAnnounces
  | subscribeAnnouncesOk
  | subscribeAnnouncesError
  | unsubscribeAnnounces
  deriving DecidableEq, Repr

/-- The discriminant values of the `ControlMessageType` enum
(draft-12 table 2, src/message.rs). -/
def ControlMessageType.code : ControlMessageType → Nat
  | .clientSetup => 0x20
  | .serverSetup => 0x21
  | .goaway => 0x10
  | .maxRequestId => 0x15
  | .requestsBlocked => 0x1A
  | .subscribe => 0x03
  | .subscribeOk => 0x04
  | .subscribeError => 0x05
  | .subscribeUpdate => 0x02
  | .unsubscribe => 0x0A
  | .subscribeDone => 0x0B
  | .publish => 0x1D
  | .publishOk => 0x1E
  | .publishError => 0x1F
  | .fetch => 0x16
  | .fetchOk => 0x18
  | .fetchError => 0x19
  | .fetchCancel => 0x17
  | .trackStatusRequest => 0x0D
  | .trackStatus => 0x0E
  | .announce => 0x06
  | .announceOk => 0x07
  | .announceError => 0x08
  | .unannounce => 0x09
  | .announceCancel => 0x0C
  | .subscribeAnnounces => 0x11
  | .subscribeAnnouncesOk => 0x12
  | .subscribeAnnouncesError => 0x13
  | .unsubscribeAnnounces => 0x14

/-- `TryFrom<u64> for ControlMessageType` (src/message.rs): unknown
codes are `Error::UnknownMessageType`. -/
def ControlMessageType.tryFrom (value : Nat) : Except Error ControlMessageType :=
  match value with
  | 0x20 => .ok .clientSetup
  | 0x21 => .ok .serverSetup
  | 0x10 => .ok .goaway
  | 0x15 => .ok .maxRequestId
  | 0x1A => .ok .requestsBlocked
  | 0x03 => .ok .subscribe
  | 0x04 => .ok .subscribeOk
  | 0x05 => .ok .subscribeError
  | 0x02 => .ok .subscribeUpdate
  | 0x0A => .ok .unsubscribe
  | 0x0B => .ok .subscribeDone
  | 0x1D => .ok .publish
  | 0x1E => .ok .publishOk
  | 0x1F => .ok .publishError
  | 0x16 => .ok .fetch
  | 0x18 => .ok .fetchOk
  | 0x19 => .ok .fetchError
  | 0x17 => .ok .fetchCancel
  | 0x0D => .ok .trackStatusRequest
  | 0x0E => .ok .trackStatus
  | 0x06 => .ok .announce
  | 0x07 => .ok .announceOk
  | 0x08 => .ok .announceError
  | 0x09 => .ok .unannounce
  | 0x0C => .ok .announceCancel
  | 0x11 => .ok .subscribeAnnounces
  | 0x12 => .ok .subscribeAnnouncesOk
  | 0x13 => .ok .subscribeAnnouncesError
  | 0x14 => .ok .unsubscribeAnnounces
  | _ => .error .unknownMessageType

/-- The per-variant framing block repeated throughout `Codec::encode`
(src/codec.rs and src/coding/message.rs): type as varint, payload into a
scratch buffer, payload length as varint, then the payload bytes. -/
def frameOne (code : Nat) (payload : Except Error (List Nat)) :
    Except Error (List Nat) := do
  let tb ← VarInt.encode code
  let pl ← payload
  let lb ← VarInt.encode pl.length
  pure (tb ++ lb ++ pl)

/-- `Codec::encode` / `ControlMessageCodec::encode` (src/codec.rs,
src/coding/message.rs). -/
def Codec.encode (m : ControlMessage) : Except Error (List Nat) :=
  match m with
  | .clientSetup msg => frameOne (ControlMessageType.code .clientSetup) msg.encode
  | .serverSetup msg => frameOne (ControlMessageType.code .serverSetup) msg.encode
  | .goaway msg => frameOne (ControlMessageType.code .goaway) msg.encode
  | .maxRequestId msg => frameOne (ControlMessageType.code .maxRequestId) msg.encode
  | .requestsBlocked msg => frameOne (ControlMessageType.code .requestsBlocked) msg.encode
  | .subscribe msg => frameOne (ControlMessageType.code .subscribe) msg.encode
  | .subscribeOk msg => frameOne (ControlMessageType.code .subscribeOk) msg.encode
  | .subscribeError msg => frameOne (ControlMessageType.code .subscribeError) msg.encode
  | .subscribeUpdate msg => frameOne (ControlMessageType.code .subscribeUpdate) msg.encode
  | .unsubscribe msg => frameOne (ControlMessageType.code .unsubscribe) msg.encode
  | .subscribeDone msg => frameOne (ControlMessageType.code .subscribeDone) msg.encode
  | .publish msg => frameOne (ControlMessageType.code .publish) msg.encode
  | .publishOk msg => frameOne (ControlMessageType.code .publishOk) msg.encode
  | .publishError msg => frameOne (ControlMessageType.code .publishError) msg.encode
  | .fetch msg => frameOne (ControlMessageType.code .fetch) msg.encode
  | .fetchOk msg => frameOne (ControlMessageType.code .fetchOk) msg.encode
  | .fetchError msg => frameOne (ControlMessageType.code .fetchError) msg.encode
  | .fetchCancel msg => frameOne (ControlMessageType.code .fetchCancel) msg.encode
  | .trackStatusRequest msg =>
    frameOne (ControlMessageType.code .trackStatusRequest) msg.encode
  | .trackStatus msg => frameOne (ControlMessageType.code .trackStatus) msg.encode
  | .announce msg => frameOne (ControlMessageType.code .announce) msg.encode
  | .announceOk msg => frameOne (ControlMessageType.code .announceOk) msg.encode
  | .announceError msg => frameOne (ControlMessageType.code .announceError) msg.encode
  | .unannounce msg => frameOne (ControlMessageType.code .unannounce) msg.encode
  | .announceCancel msg => frameOne (ControlMessageType.code .announceCancel) msg.encode
  | .subscribeAnnounces msg =>
    frameOne (ControlMessageType.code .subscribeAnnounces) msg.encode
  | .subscribeAnnouncesOk msg =>
    frameOne (ControlMessageType.code .subscribeAnnouncesOk) msg.encode
  | .subscribeAnnouncesError msg =>
    frameOne (ControlMessageType.code .subscribeAnnouncesError) msg.encode
  | .unsubscribeAnnounces msg =>
    frameOne (ControlMessageType.code .unsubscribeAnnounces) msg.encode

/-- The payload dispatch `match ControlMessageType::try_from(msg_type)?`
inside `Codec::decode`. -/
def decodePayload (t : ControlMessageType) (payload : List Nat) :
    Except Error (ControlMessage × List Nat) :=
  match t with
  | .clientSetup => do let (m, r) ← ClientSetup.decode payload; .ok (.clientSetup m, r)
  | .serverSetup => do let (m, r) ← ServerSetup.decode payload; .ok (.serverSetup m, r)
  | .goaway => do let (m, r) ← Goaway.decode payload; .ok (.goaway m, r)
  | .maxRequestId => do let (m, r) ← MaxRequestId.decode payload; .ok (.maxRequestId m, r)
  | .requestsBlocked => do
    let (m, r) ← RequestsBlocked.decode payload; .ok (.requestsBlocked m, r)
  | .subscribe => do let (m, r) ← Subscribe.decode payload; .ok (.subscribe m, r)
  | .subscribeOk => do let (m, r) ← SubscribeOk.decode payload; .ok (.subscribeOk m, r)
  | .subscribeError => do
    let (m, r) ← SubscribeError.decode payload; .ok (.subscribeError m, r)
  | .subscribeUpdate => do
    let (m, r) ← SubscribeUpdate.decode payload; .ok (.subscribeUpdate m, r)
  | .unsubscribe => do let (m, r) ← Unsubscribe.decode payload; .ok (.unsubscribe m, r)
  | .subscribeDone => do
    let (m, r) ← SubscribeDone.decode payload; .ok (.subscribeDone m, r)
  | .publish => do let (m, r) ← Publish.decode payload; .ok (.publish m, r)
  | .publishOk => do let (m, r) ← PublishOk.decode payload; .ok (.publishOk m, r)
  | .publishError => do
    let (m, r) ← PublishError.decode payload; .ok (.publishError m, r)
  | .fetch => do let (m, r) ← Fetch.decode payload; .ok (.fetch m, r)
  | .fetchOk => do let (m, r) ← FetchOk.decode payload; .ok (.fetchOk m, r)
  | .fetchError => do let (m, r) ← FetchError.decode payload; .ok (.fetchError m, r)
  | .fetchCancel => do let (m, r) ← FetchCancel.decode payload; .ok (.fetchCancel m, r)
  | .trackStatusRequest => do
    let (m, r) ← TrackStatusRequest.decode payload; .ok (.trackStatusRequest m, r)
  | .trackStatus => do let (m, r) ← TrackStatus.decode payload; .ok (.trackStatus m, r)
  | .announce => do let (m, r) ← Announce.decode payload; .ok (.announce m, r)
  | .announceOk => do let (m, r) ← AnnounceOk.decode payload; .ok (.announceOk m, r)
  | .announceError => do
    let (m, r) ← AnnounceError.decode payload; .ok (.announceError m, r)
  | .unannounce => do let (m, r) ← Unannounce.decode payload; .ok (.unannounce m, r)
  | .announceCancel => do
    let (m, r) ← AnnounceCancel.decode payload; .ok (.announceCancel m, r)
  | .subscribeAnnounces => do
    let (m, r) ← SubscribeAnnounces.decode payload; .ok (.subscribeAnnounces m, r)
  | .subscribeAnnouncesOk => do
    let (m, r) ← SubscribeAnnouncesOk.decode payload; .ok (.subscribeAnnouncesOk m, r)
  | .subscribeAnnouncesError => do
    let (m, r) ← SubscribeAnnouncesError.decode payload
    .ok (.subscribeAnnouncesError m, r)
  | .unsubscribeAnnounces => do
    let (m, r) ← UnsubscribeAnnounces.decode payload; .ok (.unsubscribeAnnounces m, r)

/-- `Codec::decode` / `ControlMessageCodec::decode` (src/codec.rs lines
235–247, src/coding/message.rs lines 223–235): type varint, length
varint, then exactly `len` payload bytes split off and dispatched; a
non-empty payload remainder is the "excess payload" error. Each
`Ok(None)` returns the buffer exactly as the Rust code leaves it: the
bytes already consumed by the two `VarInt.decode` calls are gone. -/
def Codec.decode (src : List Nat) : Except Error (Option ControlMessage × List Nat) :=
  match VarInt.decode src with
  | none => .ok (none, src)
  | some (msg_type, src) =>
    match VarInt.decode src with
    | none => .ok (none, src)
    | some (len, src) =>
      if src.length < len then .ok (none, src)
      else do
        let t ← ControlMessageType.tryFrom msg_type
        let (message, payload) ← decodePayload t (src.take len)
        match payload with
        | [] => .ok (some message, src.drop len)
        | _ => .error (invErr "excess payload")

/-- Validity ("validly-constructed") of a control message: the variant
payload's `Wf`. -/
def ControlMessage.Wf : ControlMessage → Prop
  | .clientSetup msg => msg.Wf
  | .serverSetup msg => msg.Wf
  | .goaway msg => msg.Wf
  | .maxRequestId msg => msg.Wf
  | .requestsBlocked msg => msg.Wf
  | .subscribe msg => msg.Wf
  | .subscribeOk msg => msg.Wf
  | .subscribeError msg => msg.Wf
  | .subscribeUpdate msg => msg.Wf
  | .unsubscribe msg => msg.Wf
  | .subscribeDone msg => msg.Wf
  | .publish msg => msg.Wf
  | .publishOk msg => msg.Wf
  | .publishError msg => msg.Wf
  | .fetch msg => msg.Wf
  | .fetchOk msg => msg.Wf
  | .fetchError msg => msg.Wf
  | .fetchCancel msg => msg.Wf
  | .trackStatusRequest msg => msg.Wf
  | .trackStatus msg => msg.Wf
  | .announce msg => msg.Wf
  | .announceOk msg => msg.Wf
  | .announceError msg => msg.Wf
  | .unannounce msg => msg.Wf
  | .announceCancel msg => msg.Wf
  | .subscribeAnnounces msg => msg.Wf
  | .subscribeAnnouncesOk msg => msg.Wf
  | .subscribeAnnouncesError msg => msg.Wf
  | .unsubscribeAnnounces msg => msg.Wf

/-- The two canonicity side conditions under which the universal
round-trip actually holds on this code: a GOAWAY URI, when present, is
nonempty (`decode` turns a zero length into `none`), and even-type
CLIENT_SETUP parameter values are canonical varint encodings
(`Parameter::decode` re-serializes even values canonically). -/
def ControlMessage.Canon : ControlMessage → Prop
  | .goaway msg => msg.new_session_uri ≠ some []
  | .clientSetup msg => ∀ p ∈ msg.setup_parameters, SetupParamCanon p
  | _ => True

/-- `session::State` (src/session.rs). -/
inductive SessionLifecycle where
  | initializing
  | active
  | closing
  deriving DecidableEq, Repr

/-- The mutable state of `session::Session` (src/session.rs): the
control channel, track manager handle and transport are irrelevant to
the session-invariant claims and are dropped. -/
structure Session where
  state : SessionLifecycle
  received_goaway : Bool
  max_request_id : Nat
  deriving DecidableEq, Repr

/-- `Session::new` (src/session.rs). -/
def Session.new : Session :=
  { state := .initializing, received_goaway := false, max_request_id := 0 }

/-- `Session::handle_goaway` (src/session.rs lines 49–70). Mutation is
modelled by returning the updated session alongside the result, so an
error after a state change keeps the change, exactly as the Rust code
does: `received_goaway` is set to `true` before the URI check. -/
def Session.handle_goaway (s : Session) (msg : Goaway) (is_server : Bool) :
    Except Error Unit × Session :=
  if s.received_goaway then
    (.error (.protocolViolation "multiple GOAWAY messages"), s)
  else
    let s := { s with received_goaway := true }
    if is_server ∧ msg.new_session_uri.isSome then
      (.error (.protocolViolation "GOAWAY from client contained URI"), s)
    else
      (.ok (), { s with state := .closing })

/-- `Session::handle_max_request_id` (src/session.rs lines 76–85). -/
def Session.handle_max_request_id (s : Session) (msg : MaxRequestId) :
    Except Error Unit × Session :=
  if msg.request_id ≤ s.max_request_id then
    (.error (.protocolViolation "MAX_REQUEST_ID decreased"), s)
  else
    (.ok (), { s with max_request_id := msg.request_id })

/-- Association-list lookup mirroring `HashMap::get` (first and only
binding of the key, since insertion replaces). -/
def assocLookup {β : Type} : List (Nat × β) → Nat → Option β
  | [], _ => none
  | (k, v) :: rest, a => if k = a then some v else assocLookup rest a

/-- Removal of a key, mirroring `HashMap::remove`'s effect on the map. -/
def assocRemove {β : Type} : List (Nat × β) → Nat → List (Nat × β)
  | [], _ => []
  | (k, v) :: rest, a =>
    if k = a then assocRemove rest a else (k, v) :: assocRemove rest a

/-- Insertion replacing any previous binding, mirroring
`HashMap::insert`. -/
def assocInsert {β : Type} (l : List (Nat × β)) (k : Nat) (v : β) : List (Nat × β) :=
  (k, v) :: assocRemove l k

/-- String-keyed variants for the `tracks` map. -/
def assocLookupS {β : Type} : List (String × β) → String → Option β
  | [], _ => none
  | (k, v) :: rest, a => if k = a then some v else assocLookupS rest a

def assocRemoveS {β : Type} : List (String × β) → String → List (String × β)
  | [], _ => []
  | (k, v) :: rest, a =>
    if k = a then assocRemoveS rest a else (k, v) :: assocRemoveS rest a

def assocInsertS {β : Type} (l : List (String × β)) (k : String) (v : β) :
    List (String × β) :=
  (k, v) :: assocRemoveS l k

/-- `track::TrackState` (src/track.rs): the subscriber sink list is
modelled by its length (the `mpsc::Sender`s carry no protocol state). -/
structure TrackState where
  name : String
  track_alias : Option Nat
  subscribers : Nat
  deriving DecidableEq, Repr

/-- `track::TrackManager` (src/track.rs): the three maps plus the two
atomics, in a sequential (no-interleaving) model. -/
structure TrackManager where
  tracks : List (String × TrackState)
  aliases : List (Nat × String)
  requests : List (Nat × String)
  request_counter : Nat
  max_request_id : Nat
  deriving DecidableEq, Repr

/-- `TrackManager::default` (src/track.rs). -/
def TrackManager.default : TrackManager :=
  { tracks := [], aliases := [], requests := [], request_counter := 0, max_request_id := 0 }

/-- `TrackManager::add_track` (src/track.rs): `entry(...).or_insert_with`
keeps an existing track untouched. -/
def TrackManager.add_track (tm : TrackManager) (name : String) : TrackManager :=
  match assocLookupS tm.tracks name with
  | some _ => tm
  | none =>
    let st : TrackState := { name := name, track_alias := none, subscribers := 0 }
    { tm with tracks := assocInsertS tm.tracks name st }

/-- `TrackManager::assign_alias` (src/track.rs lines 58–65). -/
def TrackManager.assign_alias (tm : TrackManager) (a : Nat) (name : String) :
    Except Error Unit × TrackManager :=
  if (assocLookup tm.aliases a).isSome then
    (.error (.duplicateTrackAlias a), tm)
  else
    (.ok (), { tm with aliases := assocInsert tm.aliases a name })

/-- `TrackManager::new_request_id` (src/track.rs lines 69–76): returns
the current counter and then increments it, unless the counter has
reached `max_request_id`. -/
def TrackManager.new_request_id (tm : TrackManager) : Except Error Nat × TrackManager :=
  let next := tm.request_counter
  let max := tm.max_request_id
  if max ≤ next then
    (.error .tooManyRequests, tm)
  else
    (.ok next, { tm with request_counter := next + 1 })

/-- `TrackManager::set_track_alias` (src/track.rs lines 80–91):
`assign_alias` then, if a track state exists, record the alias in it. -/
def TrackManager.set_track_alias (tm : TrackManager) (name : String) (a : Nat) :
    Except Error Unit × TrackManager :=
  match tm.assign_alias a name with
  | (.error e, tm) => (.error e, tm)
  | (.ok (), tm) =>
    match assocLookupS tm.tracks name with
    | some st =>
      let st := { st with track_alias := some a }
      (.ok (), { tm with tracks := assocInsertS tm.tracks name st })
    | none => (.ok (), tm)

/-- `TrackManager::resolve_alias` (src/track.rs lines 93–96). -/
def TrackManager.resolve_alias (tm : TrackManager) (a : Nat) : Option String :=
  assocLookup tm.aliases a

/-- `TrackManager::handle_max_request_id` (src/track.rs lines 100–109). -/
def TrackManager.handle_max_request_id (tm : TrackManager) (new_max : Nat) :
    Except Error Unit × TrackManager :=
  if new_max ≤ tm.max_request_id then
    (.error (.protocolViolation "MAX_REQUEST_ID decreased"), tm)
  else
    (.ok (), { tm with max_request_id := new_max })

/-- `TrackManager::subscribe_track` (src/track.rs lines 112–124): add
the track, allocate a request id, register a subscriber sink, record
the outstanding request. The returned `ObjectStream` carries no protocol
state and is dropped from the model. -/
def TrackManager.subscribe_track (tm : TrackManager) (name : String) :
    Except Error Nat × TrackManager :=
  let tm := tm.add_track name
  match tm.new_request_id with
  | (.error e, tm) => (.error e, tm)
  | (.ok request_id, tm) =>
    let tm :=
      match assocLookupS tm.tracks name with
      | some st =>
        let st := { st with subscribers := st.subscribers + 1 }
        { tm with tracks := assocInsertS tm.tracks name st }
      | none => tm
    (.ok request_id, { tm with requests := assocInsert tm.requests request_id name })

/-- `TrackManager::handle_subscribe_ok` (src/track.rs lines 127–136):
the `requests` entry is removed first; an unknown id is a protocol
violation; otherwise the alias is bound via `set_track_alias`. -/
def TrackManager.handle_subscribe_ok (tm : TrackManager) (ok : SubscribeOk) :
    Except Error Unit × TrackManager :=
  let name := assocLookup tm.requests ok.request_id
  let tm := { tm with requests := assocRemove tm.requests ok.request_id }
  match name with
  | none => (.error (.protocolViolation "unknown request"), tm)
  | some name => tm.set_track_alias name ok.track_alias

/-- A run of `n` successive `new_request_id` calls (the allocation
sequence quantified over by the request-id budget claim): the list of
per-call results and the final state. -/
def allocRun (tm : TrackManager) : Nat → List (Except Error Nat) × TrackManager
  | 0 => ([], tm)
  | n + 1 =>
    let r := tm.new_request_id
    let rest := allocRun r.2 n
    (r.1 :: rest.1, rest.2)

/-- The length class (1/2/4/8 bytes) that the spec calls "the shortest
prefix class that fits `v`". -/
def varIntClassLen (v : Nat) : Nat :=
  if v < 2 ^ 6 then 1 else if v < 2 ^ 14 then 2 else if v < 2 ^ 30 then 4 else 8

/-- A length class `c ∈ {1,2,4,8}` can represent `v` iff `v < 2^(8c-2)`. -/
def varIntFits (c v : Nat) : Prop := v < 2 ^ (8 * c - 2)

theorem varIntEncode_eq_ok {v : Nat} (hv : v < 2 ^ 62) :
    VarInt.encode v = .ok (varIntEncodeBytes v) := by
  unfold VarInt.encode varIntEncodeBytes
  split_ifs <;> rfl

theorem varIntEncodeBytes_length (v : Nat) :
    (varIntEncodeBytes v).length = varIntClassLen v := by
  unfold varIntEncodeBytes varIntClassLen
  split_ifs <;> rfl

theorem varIntDecode_encodeBytes {v : Nat} (hv : v < 2 ^ 62) (rest : List Nat) :
    VarInt.decode (varIntEncodeBytes v ++ rest) = some (v, rest) := by
  unfold varIntEncodeBytes
  split_ifs with h1 h2 h3
  · simp only [List.cons_append, List.nil_append, VarInt.decode]
    rw [if_pos (by omega)]
    simp only [Option.some.injEq, Prod.mk.injEq]
    exact ⟨by omega, trivial⟩
  · simp only [List.cons_append, List.nil_append, VarInt.decode]
    rw [if_neg (by omega), if_pos (by omega)]
    simp only [Option.some.injEq, Prod.mk.injEq]
    exact ⟨by omega, trivial⟩
  · simp only [List.cons_append, List.nil_append, VarInt.decode]
    rw [if_neg (by omega), if_neg (by omega), if_pos (by omega)]
    simp only [Option.some.injEq, Prod.mk.injEq]
    exact ⟨by omega, trivial⟩
  · simp only [List.cons_append, List.nil_append, VarInt.decode]
    rw [if_neg (by omega), if_neg (by omega), if_neg (by omega)]
    simp only [Option.some.injEq, Prod.mk.injEq]
    exact ⟨by omega, trivial⟩

theorem varIntClassLen_fits {v : Nat} (hv : v < 2 ^ 62) :
    varIntFits (varIntClassLen v) v := by
  unfold varIntClassLen varIntFits
  split_ifs <;> omega

theorem varIntClassLen_min {v c : Nat} (hc : c = 1 ∨ c = 2 ∨ c = 4 ∨ c = 8)
    (h : varIntFits c v) : varIntClassLen v ≤ c := by
  unfold varIntFits at h
  unfold varIntClassLen
  rcases hc with rfl | rfl | rfl | rfl <;> split_ifs <;> omega

/-! ## Generic lemmas about the embedding's monadic plumbing -/

@[simp]
theorem except_bind_ok {α β : Type} (a : α) (f : α → Except Error β) :
    (Except.ok a >>= f) = f a := rfl

@[simp]
theorem except_bind_err {α β : Type} (e : Error) (f : α → Except Error β) :
    ((Except.error e : Except Error α) >>= f) = .error e := rfl

@[simp]
theorem except_pure_eq {α : Type} (a : α) : (pure a : Except Error α) = .ok a := rfl

@[simp]
theorem except_throw_eq {α : Type} (e : Error) : (throw e : Except Error α) = .error e := rfl

@[simp]
theorem append_length_lt_iff {α : Type} (xs r : List α) :
    ((xs ++ r).length < xs.length) ↔ False := by
  simp only [List.length_append, iff_false, Nat.not_lt]
  omega

@[simp]
theorem take_length_append {α : Type} (xs r : List α) : (xs ++ r).take xs.length = xs :=
  List.take_left xs r

@[simp]
theorem drop_length_append {α : Type} (xs r : List α) : (xs ++ r).drop xs.length = r :=
  List.drop_left xs r

theorem paramsWf_head {p : Parameter} {ps : List Parameter} (h : ParamsWf (p :: ps)) :
    p.parameter_type < 2 ^ 62 ∧ p.value.length < 2 ^ 62 ∧ ∀ b ∈ p.value, b < 256 :=
  h p (List.mem_cons_self p ps)

theorem paramsWf_tail {p : Parameter} {ps : List Parameter} (h : ParamsWf (p :: ps)) :
    ParamsWf ps := fun q hq => h q (List.mem_cons_of_mem p hq)

theorem encodeParamsRaw_ok {ps : List Parameter} (h : ParamsWf ps) :
    ∃ bs, encodeParamsRaw ps = .ok bs := by
  induction ps with
  | nil => exact ⟨[], rfl⟩
  | cons p ps ih =>
    obtain ⟨bs, hbs⟩ := ih (paramsWf_tail h)
    obtain ⟨hty, hlen, -⟩ := paramsWf_head h
    refine ⟨varIntEncodeBytes p.parameter_type ++ varIntEncodeBytes p.value.length ++
      p.value ++ bs, ?_⟩
    simp [encodeParamsRaw, varIntEncode_eq_ok hty, varIntEncode_eq_ok hlen, hbs]

theorem decodeParamsRaw_encodeParamsRaw {ps : List Parameter} (h : ParamsWf ps)
    {bs : List Nat} (hok : encodeParamsRaw ps = .ok bs) (rest : List Nat) :
    decodeParamsRaw ps.length (bs ++ rest) = .ok (ps, rest) := by
  induction ps generalizing bs rest with
  | nil =>
    simp only [encodeParamsRaw, except_pure_eq, Except.ok.injEq] at hok
    subst hok
    simp [decodeParamsRaw]
  | cons p ps ih =>
    obtain ⟨hty, hlen, -⟩ := paramsWf_head h
    cases hrec : encodeParamsRaw ps with
    | error e =>
      rw [encodeParamsRaw, varIntEncode_eq_ok hty, varIntEncode_eq_ok hlen] at hok
      simp [hrec] at hok
    | ok tl =>
      rw [encodeParamsRaw, varIntEncode_eq_ok hty, varIntEncode_eq_ok hlen] at hok
      simp only [hrec, except_bind_ok, except_pure_eq, Except.ok.injEq] at hok
      subst hok
      rw [List.length_cons, decodeParamsRaw]
      simp only [List.append_assoc, varIntDecode_encodeBytes hty,
        varIntDecode_encodeBytes hlen, append_length_lt_iff, if_false,
        take_length_append, drop_length_append, ih (paramsWf_tail h) hrec,
        except_bind_ok]


theorem fromUtf8_ok {bs : List Nat} (h : validUtf8 bs = true) : fromUtf8 bs = .ok bs := by
  simp [fromUtf8, h]

theorem location_encode_ok {l : Location} (hg : l.group < 2 ^ 62) (ho : l.object < 2 ^ 62) :
    Location.encode l = .ok (varIntEncodeBytes l.group ++ varIntEncodeBytes l.object) := by
  simp [Location.encode, varIntEncode_eq_ok hg, varIntEncode_eq_ok ho]

theorem location_decode_encodeBytes {l : Location} (hg : l.group < 2 ^ 62)
    (ho : l.object < 2 ^ 62) (rest : List Nat) :
    Location.decode (varIntEncodeBytes l.group ++ (varIntEncodeBytes l.object ++ rest)) =
      .ok (l, rest) := by
  simp [Location.decode, List.append_assoc, varIntDecode_encodeBytes hg,
    varIntDecode_encodeBytes ho]

/-! ## Payload round-trips, one lemma per message -/

theorem maxRequestId_rt {m : MaxRequestId} (h : m.Wf) {bs : List Nat}
    (hok : MaxRequestId.encode m = .ok bs) (rest : List Nat) :
    MaxRequestId.decode (bs ++ rest) = .ok (m, rest) := by
  rw [MaxRequestId.encode, varIntEncode_eq_ok h] at hok
  simp only [except_bind_ok, except_pure_eq, Except.ok.injEq] at hok
  subst hok
  simp [MaxRequestId.decode, varIntDecode_encodeBytes h]


theorem requestsBlocked_rt {m : RequestsBlocked} (h : m.Wf) {bs : List Nat}
    (hok : RequestsBlocked.encode m = .ok bs) (rest : List Nat) :
    RequestsBlocked.decode (bs ++ rest) = .ok (m, rest) := by
  rw [RequestsBlocked.encode, varIntEncode_eq_ok h] at hok
  simp only [except_bind_ok, except_pure_eq, Except.ok.injEq] at hok
  subst hok
  simp [RequestsBlocked.decode, varIntDecode_encodeBytes h]

theorem unsubscribe_rt {m : Unsubscribe} (h : m.Wf) {bs : List Nat}
    (hok : Unsubscribe.encode m = .ok bs) (rest : List Nat) :
    Unsubscribe.decode (bs ++ rest) = .ok (m, rest) := by
  rw [Unsubscribe.encode, varIntEncode_eq_ok h] at hok
  simp only [except_bind_ok, except_pure_eq, Except.ok.injEq] at hok
  subst hok
  simp [Unsubscribe.decode, varIntDecode_encodeBytes h]

theorem announceOk_rt {m : AnnounceOk} (h : m.Wf) {bs : List Nat}
    (hok : AnnounceOk.encode m = .ok bs) (rest : List Nat) :
    AnnounceOk.decode (bs ++ rest) = .ok (m, rest) := by
  rw [AnnounceOk.encode, varIntEncode_eq_ok h] at hok
  simp only [except_bind_ok, except_pure_eq, Except.ok.injEq] at hok
  subst hok
  simp [AnnounceOk.decode, varIntDecode_encodeBytes h]

theorem unannounce_rt {m : Unannounce} (h : m.Wf) {bs : List Nat}
    (hok : Unannounce.encode m = .ok bs) (rest : List Nat) :
    Unannounce.decode (bs ++ rest) = .ok (m, rest) := by
  rw [Unannounce.encode, varIntEncode_eq_ok h] at hok
  simp only [except_bind_ok, except_pure_eq, Except.ok.injEq] at hok
  subst hok
  simp [Unannounce.decode, varIntDecode_encodeBytes h]

theorem fetchCancel_rt {m : FetchCancel} (h : m.Wf) {bs : List Nat}
    (hok : FetchCancel.encode m = .ok bs) (rest : List Nat) :
    FetchCancel.decode (bs ++ rest) = .ok (m, rest) := by
  rw [FetchCancel.encode, varIntEncode_eq_ok h] at hok
  simp only [except_bind_ok, except_pure_eq, Except.ok.injEq] at hok
  subst hok
  simp [FetchCancel.decode, varIntDecode_encodeBytes h]

theorem subscribeAnnouncesOk_rt {m : SubscribeAnnouncesOk} (h : m.Wf) {bs : List Nat}
    (hok : SubscribeAnnouncesOk.encode m = .ok bs) (rest : List Nat) :
    SubscribeAnnouncesOk.decode (bs ++ rest) = .ok (m, rest) := by
  rw [SubscribeAnnouncesOk.encode, varIntEncode_eq_ok h] at hok
  simp only [except_bind_ok, except_pure_eq, Except.ok.injEq] at hok
  subst hok
  simp [SubscribeAnnouncesOk.decode, varIntDecode_encodeBytes h]

theorem subscribeError_rt {m : SubscribeError} (h : m.Wf) {bs : List Nat}
    (hok : SubscribeError.encode m = .ok bs) (rest : List Nat) :
    SubscribeError.decode (bs ++ rest) = .ok (m, rest) := by
  obtain ⟨h1, h2, h3, h4⟩ := h
  rw [SubscribeError.encode, varIntEncode_eq_ok h1, varIntEncode_eq_ok h2,
    varIntEncode_eq_ok h3] at hok
  simp only [except_bind_ok, except_pure_eq, Except.ok.injEq] at hok
  subst hok
  simp [SubscribeError.decode, List.append_assoc, varIntDecode_encodeBytes h1,
    varIntDecode_encodeBytes h2, varIntDecode_encodeBytes h3, fromUtf8_ok h4]

theorem announceCancel_rt {m : AnnounceCancel} (h : m.Wf) {bs : List Nat}
    (hok : AnnounceCancel.encode m = .ok bs) (rest : List Nat) :
    AnnounceCancel.decode (bs ++ rest) = .ok (m, rest) := by
  obtain ⟨h1, h2, h3, h4⟩ := h
  rw [AnnounceCancel.encode, varIntEncode_eq_ok h1, varIntEncode_eq_ok h2,
    varIntEncode_eq_ok h3] at hok
  simp only [except_bind_ok, except_pure_eq, Except.ok.injEq] at hok
  subst hok
  simp [AnnounceCancel.decode, List.append_assoc, varIntDecode_encodeBytes h1,
    varIntDecode_encodeBytes h2, varIntDecode_encodeBytes h3, fromUtf8_ok h4]

theorem announceError_rt {m : AnnounceError} (h : m.Wf) {bs : List Nat}
    (hok : AnnounceError.encode m = .ok bs) (rest : List Nat) :
    AnnounceError.decode (bs ++ rest) = .ok (m, rest) := by
  obtain ⟨h1, h2, h3, h4⟩ := h
  rw [AnnounceError.encode, varIntEncode_eq_ok h1, varIntEncode_eq_ok h2,
    varIntEncode_eq_ok h3] at hok
  simp only [except_bind_ok, except_pure_eq, Except.ok.injEq] at hok
  subst hok
  simp [AnnounceError.decode, List.append_assoc, varIntDecode_encodeBytes h1,
    varIntDecode_encodeBytes h2, varIntDecode_encodeBytes h3, fromUtf8_ok h4]

theorem fetchError_rt {m : FetchError} (h : m.Wf) {bs : List Nat}
    (hok : FetchError.encode m = .ok bs) (rest : List Nat) :
    FetchError.decode (bs ++ rest) = .ok (m, rest) := by
  obtain ⟨h1, h2, h3, h4⟩ := h
  rw [FetchError.encode, varIntEncode_eq_ok h1, varIntEncode_eq_ok h2,
    varIntEncode_eq_ok h3] at hok
  simp only [except_bind_ok, except_pure_eq, Except.ok.injEq] at hok
  subst hok
  simp [FetchError.decode, List.append_assoc, varIntDecode_encodeBytes h1,
    varIntDecode_encodeBytes h2, varIntDecode_encodeBytes h3, fromUtf8_ok h4]

theorem publishError_rt {m : PublishError} (h : m.Wf) {bs : List Nat}
    (hok : PublishError.encode m = .ok bs) (rest : List Nat) :
    PublishError.decode (bs ++ rest) = .ok (m, rest) := by
  obtain ⟨h1, h2, h3, h4⟩ := h
  rw [PublishError.encode, varIntEncode_eq_ok h1, varIntEncode_eq_ok h2,
    varIntEncode_eq_ok h3] at hok
  simp only [except_bind_ok, except_pure_eq, Except.ok.injEq] at hok
  subst hok
  simp [PublishError.decode, List.append_assoc, varIntDecode_encodeBytes h1,
    varIntDecode_encodeBytes h2, varIntDecode_encodeBytes h3, fromUtf8_ok h4]

theorem subscribeAnnouncesError_rt {m : SubscribeAnnouncesError} (h : m.Wf) {bs : List Nat}
    (hok : SubscribeAnnouncesError.encode m = .ok bs) (rest : List Nat) :
    SubscribeAnnouncesError.decode (bs ++ rest) = .ok (m, rest) := by
  obtain ⟨h1, h2, h3, h4⟩ := h
  rw [SubscribeAnnouncesError.encode, varIntEncode_eq_ok h1, varIntEncode_eq_ok h2,
    varIntEncode_eq_ok h3] at hok
  simp only [except_bind_ok, except_pure_eq, Except.ok.injEq] at hok
  subst hok
  simp [SubscribeAnnouncesError.decode, List.append_assoc, varIntDecode_encodeBytes h1,
    varIntDecode_encodeBytes h2, varIntDecode_encodeBytes h3, fromUtf8_ok h4]

theorem subscribeDone_rt {m : SubscribeDone} (h : m.Wf) {bs : List Nat}
    (hok : SubscribeDone.encode m = .ok bs) (rest : List Nat) :
    SubscribeDone.decode (bs ++ rest) = .ok (m, rest) := by
  obtain ⟨h1, h2, h3, h4, h5⟩ := h
  have h4' : m.reason.length < 2 ^ 62 := by omega
  rw [SubscribeDone.encode, varIntEncode_eq_ok h1, varIntEncode_eq_ok h2,
    varIntEncode_eq_ok h3] at hok
  simp only [except_bind_ok] at hok
  rw [if_neg (by omega), varIntEncode_eq_ok h4'] at hok
  simp only [except_bind_ok, except_pure_eq, Except.ok.injEq] at hok
  subst hok
  have h8 : ¬ 8192 < m.reason.length := by omega
  simp [SubscribeDone.decode, List.append_assoc, varIntDecode_encodeBytes h1,
    varIntDecode_encodeBytes h2, varIntDecode_encodeBytes h3,
    varIntDecode_encodeBytes h4', h8, fromUtf8_ok h5]

theorem unsubscribeAnnounces_rt {m : UnsubscribeAnnounces} (h : m.Wf) {bs : List Nat}
    (hok : UnsubscribeAnnounces.encode m = .ok bs) (rest : List Nat) :
    UnsubscribeAnnounces.decode (bs ++ rest) = .ok (m, rest) := by
  obtain ⟨h1, h2, h3⟩ := h
  rw [UnsubscribeAnnounces.encode, varIntEncode_eq_ok h1, varIntEncode_eq_ok h2] at hok
  simp only [except_bind_ok, except_pure_eq, Except.ok.injEq] at hok
  subst hok
  simp [UnsubscribeAnnounces.decode, List.append_assoc, varIntDecode_encodeBytes h1,
    varIntDecode_encodeBytes h2, fromUtf8_ok h3]

theorem goaway_rt {m : Goaway} (h : m.Wf) (hc : m.new_session_uri ≠ some [])
    {bs : List Nat} (hok : Goaway.encode m = .ok bs) (rest : List Nat) :
    Goaway.decode (bs ++ rest) = .ok (m, rest) := by
  obtain ⟨u⟩ := m
  cases u with
  | none =>
    have h0 : (0 : Nat) < 2 ^ 62 := by norm_num
    simp only [Goaway.encode] at hok
    rw [varIntEncode_eq_ok h0] at hok
    simp only [except_bind_ok, except_pure_eq, Except.ok.injEq] at hok
    subst hok
    simp [Goaway.decode, varIntDecode_encodeBytes h0]
  | some uri =>
    simp only [Goaway.Wf] at h
    obtain ⟨hlen, hutf⟩ := h
    have hlen62 : uri.length < 2 ^ 62 := by omega
    have hlenne : uri.length ≠ 0 := by
      intro he
      exact hc (by simp [List.length_eq_zero.mp he])
    simp only [Goaway.encode] at hok
    rw [if_neg (by omega), varIntEncode_eq_ok hlen62] at hok
    simp only [except_bind_ok, except_pure_eq, Except.ok.injEq] at hok
    subst hok
    have h8 : ¬ 8192 < uri.length := by omega
    simp [Goaway.decode, List.append_assoc, varIntDecode_encodeBytes hlen62,
      h8, hlenne, fromUtf8_ok hutf]


theorem varIntEncodeBytes_len_bounds (v : Nat) :
    1 ≤ (varIntEncodeBytes v).length ∧ (varIntEncodeBytes v).length ≤ 8 := by
  unfold varIntEncodeBytes
  split_ifs <;> simp

theorem decodeVersions_encodeVersions {vs : List Nat} (h : ∀ v ∈ vs, v ≤ 0xFFFFFFFF)
    {bs : List Nat} (hok : encodeVersions vs = .ok bs) (rest : List Nat) :
    decodeVersions vs.length (bs ++ rest) = .ok (vs, rest) := by
  induction vs generalizing bs rest with
  | nil =>
    simp only [encodeVersions, except_pure_eq, Except.ok.injEq] at hok
    subst hok
    simp [decodeVersions]
  | cons v vs ih =>
    have hv := h v (List.mem_cons_self v vs)
    have hv62 : v < 2 ^ 62 := by omega
    have h' : ∀ w ∈ vs, w ≤ 0xFFFFFFFF := fun w hw => h w (List.mem_cons_of_mem v hw)
    cases hrec : encodeVersions vs with
    | error e =>
      rw [encodeVersions, varIntEncode_eq_ok hv62] at hok
      simp [hrec] at hok
    | ok tl =>
      rw [encodeVersions, varIntEncode_eq_ok hv62] at hok
      simp only [hrec, except_bind_ok, except_pure_eq, Except.ok.injEq] at hok
      subst hok
      have hnv : ¬ 0xFFFFFFFF < v := by omega
      rw [List.length_cons, decodeVersions]
      simp [List.append_assoc, varIntDecode_encodeBytes hv62, hnv,
        ih h' hrec]

theorem decodeNsParts_encodeNsParts {parts : List (List Nat)} (h : NsPartsWf parts)
    {bs : List Nat} (hok : encodeNsParts parts = .ok bs) (rest : List Nat) :
    decodeNsParts parts.length (bs ++ rest) = .ok (parts, rest) := by
  induction parts generalizing bs rest with
  | nil =>
    simp only [encodeNsParts, except_pure_eq, Except.ok.injEq] at hok
    subst hok
    simp [decodeNsParts]
  | cons part parts ih =>
    obtain ⟨hlen, hutf⟩ := h part (List.mem_cons_self part parts)
    have h' : NsPartsWf parts := fun q hq => h q (List.mem_cons_of_mem part hq)
    cases hrec : encodeNsParts parts with
    | error e =>
      rw [encodeNsParts, varIntEncode_eq_ok hlen] at hok
      simp [hrec] at hok
    | ok tl =>
      rw [encodeNsParts, varIntEncode_eq_ok hlen] at hok
      simp only [hrec, except_bind_ok, except_pure_eq, Except.ok.injEq] at hok
      subst hok
      rw [List.length_cons, decodeNsParts]
      simp [List.append_assoc, varIntDecode_encodeBytes hlen, fromUtf8_ok hutf,
        ih h' hrec]

theorem parameter_rt {p : Parameter} (h : SetupParamWf p) (hc : SetupParamCanon p)
    {bs : List Nat} (hok : Parameter.encode p = .ok bs) (rest : List Nat) :
    Parameter.decode (bs ++ rest) = .ok (p, rest) := by
  obtain ⟨hty, hval⟩ := h
  rw [Parameter.encode, varIntEncode_eq_ok hty] at hok
  simp only [except_bind_ok] at hok
  by_cases he : p.parameter_type % 2 = 0
  · obtain ⟨w, hw62, hveq⟩ := hc he
    have hbounds := varIntEncodeBytes_len_bounds w
    have hcond : ¬ (p.value.isEmpty || 8 < p.value.length) = true := by
      rw [hveq]
      simp only [Bool.or_eq_true, List.isEmpty_iff, decide_eq_true_eq]
      rintro (hnil | hlen)
      · rw [hnil] at hbounds
        simp at hbounds
      · omega
    rw [if_pos he, if_neg hcond] at hok
    simp only [except_pure_eq, Except.ok.injEq] at hok
    subst hok
    rw [Parameter.decode]
    simp only [List.append_assoc, varIntDecode_encodeBytes hty]
    rw [hveq]
    simp only [List.append_assoc, varIntDecode_encodeBytes hw62]
    simp only [if_pos he, varIntEncode_eq_ok hw62]
    rw [← hveq]
  · rw [if_neg he] at hval
    obtain ⟨hlen, -⟩ := hval
    simp only [if_neg he] at hok
    have hlen62 : p.value.length < 2 ^ 62 := by omega
    have hlen' : ¬ 0xFFFF < p.value.length := by omega
    rw [if_neg hlen', varIntEncode_eq_ok hlen62] at hok
    simp only [except_bind_ok, except_pure_eq, Except.ok.injEq] at hok
    subst hok
    rw [Parameter.decode]
    simp [List.append_assoc, varIntDecode_encodeBytes hty,
      varIntDecode_encodeBytes hlen62, he, hlen']

theorem decodeParamsSplit_encodeParamsSplit {ps : List Parameter}
    (h : ∀ p ∈ ps, SetupParamWf p) (hc : ∀ p ∈ ps, SetupParamCanon p)
    {bs : List Nat} (hok : encodeParamsSplit ps = .ok bs) (rest : List Nat) :
    decodeParamsSplit ps.length (bs ++ rest) = .ok (ps, rest) := by
  induction ps generalizing bs rest with
  | nil =>
    simp only [encodeParamsSplit, except_pure_eq, Except.ok.injEq] at hok
    subst hok
    simp [decodeParamsSplit]
  | cons p ps ih =>
    have hp := h p (List.mem_cons_self p ps)
    have hcp := hc p (List.mem_cons_self p ps)
    have h' : ∀ q ∈ ps, SetupParamWf q := fun q hq => h q (List.mem_cons_of_mem p hq)
    have hc' : ∀ q ∈ ps, SetupParamCanon q := fun q hq => hc q (List.mem_cons_of_mem p hq)
    cases hp1 : Parameter.encode p with
    | error e =>
      rw [encodeParamsSplit, hp1] at hok
      simp at hok
    | ok pb =>
      cases hrec : encodeParamsSplit ps with
      | error e =>
        rw [encodeParamsSplit, hp1] at hok
        simp [hrec] at hok
      | ok tl =>
        rw [encodeParamsSplit, hp1] at hok
        simp only [hrec, except_bind_ok, except_pure_eq, Except.ok.injEq] at hok
        subst hok
        rw [List.length_cons, decodeParamsSplit]
        simp [List.append_assoc, parameter_rt hp hcp hp1, ih h' hc' hrec]

theorem clientSetup_rt {m : ClientSetup} (h : m.Wf)
    (hc : ∀ p ∈ m.setup_parameters, SetupParamCanon p)
    {bs : List Nat} (hok : ClientSetup.encode m = .ok bs) (rest : List Nat) :
    ClientSetup.decode (bs ++ rest) = .ok (m, rest) := by
  obtain ⟨hnv, hvers, hnp, hpw⟩ := h
  cases hv : encodeVersions m.supported_versions with
  | error e =>
    rw [ClientSetup.encode, varIntEncode_eq_ok hnv] at hok
    simp [hv] at hok
  | ok vb =>
    cases hp : encodeParamsSplit m.setup_parameters with
    | error e =>
      rw [ClientSetup.encode, varIntEncode_eq_ok hnv] at hok
      simp [hv, varIntEncode_eq_ok hnp, hp] at hok
    | ok pb =>
      rw [ClientSetup.encode, varIntEncode_eq_ok hnv] at hok
      simp only [hv, varIntEncode_eq_ok hnp, hp, except_bind_ok, except_pure_eq,
        Except.ok.injEq] at hok
      subst hok
      rw [ClientSetup.decode]
      simp [List.append_assoc, varIntDecode_encodeBytes hnv,
        decodeVersions_encodeVersions hvers hv, varIntDecode_encodeBytes hnp,
        decodeParamsSplit_encodeParamsSplit hpw hc hp]

theorem serverSetup_rt {m : ServerSetup} (h : m.Wf)
    {bs : List Nat} (hok : ServerSetup.encode m = .ok bs) (rest : List Nat) :
    ServerSetup.decode (bs ++ rest) = .ok (m, rest) := by
  obtain ⟨hver, hnp, hpw⟩ := h
  have hver62 : m.selected_version < 2 ^ 62 := by omega
  have hver' : ¬ 0xFFFFFFFF < m.selected_version := by omega
  cases hp : encodeParamsRaw m.setup_parameters with
  | error e =>
    rw [ServerSetup.encode, varIntEncode_eq_ok hver62, varIntEncode_eq_ok hnp] at hok
    simp [hp] at hok
  | ok pb =>
    rw [ServerSetup.encode, varIntEncode_eq_ok hver62, varIntEncode_eq_ok hnp] at hok
    simp only [hp, except_bind_ok, except_pure_eq, Except.ok.injEq] at hok
    subst hok
    rw [ServerSetup.decode]
    simp [List.append_assoc, varIntDecode_encodeBytes hver62, hver',
      varIntDecode_encodeBytes hnp, decodeParamsRaw_encodeParamsRaw hpw hp]

theorem trackStatusRequest_rt {m : TrackStatusRequest} (h : m.Wf)
    {bs : List Nat} (hok : TrackStatusRequest.encode m = .ok bs) (rest : List Nat) :
    TrackStatusRequest.decode (bs ++ rest) = .ok (m, rest) := by
  obtain ⟨h1, h2, h3, h4, h5, h6⟩ := h
  cases hp : encodeParamsRaw m.parameters with
  | error e =>
    rw [TrackStatusRequest.encode, varIntEncode_eq_ok h1, varIntEncode_eq_ok h2,
      varIntEncode_eq_ok h3, varIntEncode_eq_ok h5] at hok
    simp [hp] at hok
  | ok pb =>
    rw [TrackStatusRequest.encode, varIntEncode_eq_ok h1, varIntEncode_eq_ok h2,
      varIntEncode_eq_ok h3, varIntEncode_eq_ok h5] at hok
    simp only [hp, except_bind_ok, except_pure_eq, Except.ok.injEq] at hok
    subst hok
    rw [TrackStatusRequest.decode]
    simp [List.append_assoc, varIntDecode_encodeBytes h1, varIntDecode_encodeBytes h2,
      varIntDecode_encodeBytes h3, fromUtf8_ok h4, varIntDecode_encodeBytes h5,
      decodeParamsRaw_encodeParamsRaw h6 hp]

theorem trackStatus_rt {m : TrackStatus} (h : m.Wf)
    {bs : List Nat} (hok : TrackStatus.encode m = .ok bs) (rest : List Nat) :
    TrackStatus.decode (bs ++ rest) = .ok (m, rest) := by
  obtain ⟨h1, h2, hg, ho, h5, h6, h7⟩ := h
  have h2' : m.status_code < 2 ^ 62 := by omega
  have hsc : ¬ 4 < m.status_code := by omega
  have hloc : ¬ ((m.status_code = 1 ∨ m.status_code = 2) ∧
      (m.largest_location.group ≠ 0 ∨ m.largest_location.object ≠ 0)) := by
    rintro ⟨hs, hne⟩
    obtain ⟨hz, -⟩ := h7 hs
    rw [hz] at hne
    simp at hne
  have hpar : ¬ ((m.status_code = 1 ∨ m.status_code = 2) ∧ m.parameters ≠ []) := by
    rintro ⟨hs, hne⟩
    exact hne (h7 hs).2
  cases hp : encodeParamsRaw m.parameters with
  | error e =>
    rw [TrackStatus.encode] at hok
    rw [if_neg hsc, if_neg hloc, if_neg hpar, varIntEncode_eq_ok h1,
      varIntEncode_eq_ok h2', location_encode_ok hg ho, varIntEncode_eq_ok h5] at hok
    simp [hp] at hok
  | ok pb =>
    rw [TrackStatus.encode] at hok
    rw [if_neg hsc, if_neg hloc, if_neg hpar, varIntEncode_eq_ok h1,
      varIntEncode_eq_ok h2', location_encode_ok hg ho, varIntEncode_eq_ok h5] at hok
    simp only [hp, except_bind_ok, except_pure_eq, Except.ok.injEq] at hok
    subst hok
    rw [TrackStatus.decode]
    simp [List.append_assoc, varIntDecode_encodeBytes h1, varIntDecode_encodeBytes h2',
      hsc, location_decode_encodeBytes hg ho, varIntDecode_encodeBytes h5,
      decodeParamsRaw_encodeParamsRaw h6 hp, hloc, hpar]

theorem subscribeUpdate_rt {m : SubscribeUpdate} (h : m.Wf)
    {bs : List Nat} (hok : SubscribeUpdate.encode m = .ok bs) (rest : List Nat) :
    SubscribeUpdate.decode (bs ++ rest) = .ok (m, rest) := by
  obtain ⟨h1, hg, ho, h2, h3, hfw, h5, h6⟩ := h
  have hfw' : ¬ (m.forward ≠ 0 ∧ m.forward ≠ 1) := by
    rcases hfw with h | h <;> simp [h]
  cases hp : encodeParamsRaw m.parameters with
  | error e =>
    rw [SubscribeUpdate.encode, varIntEncode_eq_ok h1, location_encode_ok hg ho,
      varIntEncode_eq_ok h2] at hok
    simp only [except_bind_ok] at hok
    rw [if_neg hfw', varIntEncode_eq_ok h5] at hok
    simp [hp] at hok
  | ok pb =>
    rw [SubscribeUpdate.encode, varIntEncode_eq_ok h1, location_encode_ok hg ho,
      varIntEncode_eq_ok h2] at hok
    simp only [except_bind_ok] at hok
    rw [if_neg hfw', varIntEncode_eq_ok h5] at hok
    simp only [hp, except_bind_ok, except_pure_eq, Except.ok.injEq] at hok
    subst hok
    rw [SubscribeUpdate.decode]
    simp [List.append_assoc, varIntDecode_encodeBytes h1,
      location_decode_encodeBytes hg ho, varIntDecode_encodeBytes h2,
      hfw', varIntDecode_encodeBytes h5, decodeParamsRaw_encodeParamsRaw h6 hp]

theorem subscribeAnnounces_rt {m : SubscribeAnnounces} (h : m.Wf)
    {bs : List Nat} (hok : SubscribeAnnounces.encode m = .ok bs) (rest : List Nat) :
    SubscribeAnnounces.decode (bs ++ rest) = .ok (m, rest) := by
  obtain ⟨h1, hc1, hc2, hparts, h5, h6⟩ := h
  have hcount : ¬ (m.track_namespace_parts.isEmpty ||
      32 < m.track_namespace_parts.length) = true := by
    simp only [Bool.or_eq_true, List.isEmpty_iff, decide_eq_true_eq]
    rintro (hnil | hgt)
    · rw [hnil] at hc1
      simp at hc1
    · omega
  have hcl : m.track_namespace_parts.length < 2 ^ 62 := by omega
  have hguard : ¬ (m.track_namespace_parts.length = 0 ∨
      32 < m.track_namespace_parts.length) := by omega
  cases hcb : encodeNsParts m.track_namespace_parts with
  | error e =>
    rw [SubscribeAnnounces.encode] at hok
    rw [if_neg hcount, varIntEncode_eq_ok h1, varIntEncode_eq_ok hcl] at hok
    simp [hcb] at hok
  | ok cb =>
    cases hp : encodeParamsRaw m.parameters with
    | error e =>
      rw [SubscribeAnnounces.encode] at hok
      rw [if_neg hcount, varIntEncode_eq_ok h1, varIntEncode_eq_ok hcl] at hok
      simp [hcb, varIntEncode_eq_ok h5, hp] at hok
    | ok pb =>
      rw [SubscribeAnnounces.encode] at hok
      rw [if_neg hcount, varIntEncode_eq_ok h1, varIntEncode_eq_ok hcl] at hok
      simp only [hcb, varIntEncode_eq_ok h5, hp, except_bind_ok, except_pure_eq,
        Except.ok.injEq] at hok
      subst hok
      rw [SubscribeAnnounces.decode]
      simp [List.append_assoc, varIntDecode_encodeBytes h1,
        varIntDecode_encodeBytes hcl, hguard, decodeNsParts_encodeNsParts hparts hcb,
        varIntDecode_encodeBytes h5, decodeParamsRaw_encodeParamsRaw h6 hp]
      refine ⟨?_, hc2⟩
      intro he
      rw [he] at hc1
      simp at hc1

theorem announce_rt {m : Announce} (h : m.Wf)
    {bs : List Nat} (hok : Announce.encode m = .ok bs) (rest : List Nat) :
    Announce.decode (bs ++ rest) = .ok (m, rest) := by
  obtain ⟨hcl, hparts, h5, h6⟩ := h
  cases hcb : encodeNsParts m.track_namespace_parts with
  | error e =>
    rw [Announce.encode, varIntEncode_eq_ok hcl] at hok
    simp [hcb] at hok
  | ok cb =>
    cases hp : encodeParamsRaw m.parameters with
    | error e =>
      rw [Announce.encode, varIntEncode_eq_ok hcl] at hok
      simp [hcb, varIntEncode_eq_ok h5, hp] at hok
    | ok pb =>
      rw [Announce.encode, varIntEncode_eq_ok hcl] at hok
      simp only [hcb, varIntEncode_eq_ok h5, hp, except_bind_ok, except_pure_eq,
        Except.ok.injEq] at hok
      subst hok
      rw [Announce.decode]
      simp [List.append_assoc, varIntDecode_encodeBytes hcl,
        decodeNsParts_encodeNsParts hparts hcb, varIntDecode_encodeBytes h5,
        decodeParamsRaw_encodeParamsRaw h6 hp]


theorem subscribe_rt {m : Subscribe} (h : m.Wf) {bs : List Nat}
    (hok : Subscribe.encode m = .ok bs) (rest : List Nat) :
    Subscribe.decode (bs ++ rest) = .ok (m, rest) := by
  obtain ⟨rid, ns, name, prio, go, fw, ft, sl, eg, ps⟩ := m
  obtain ⟨h1, h2, h3, h4, h5, h6, h7, h8, h9, h10, h11, h12⟩ := h
  dsimp only at *
  have hgo' : ¬ 2 < go := by omega
  have hfw' : ¬ (fw ≠ 0 ∧ fw ≠ 1) := by rcases h7 with h | h <;> simp [h]
  have hft62 : ft < 2 ^ 62 := by rcases h8 with rfl | rfl | rfl | rfl <;> norm_num
  rcases h8 with rfl | rfl | rfl | rfl
  · cases sl with
    | some loc => simp at h9
    | none =>
      cases eg with
      | some e => simp at h10
      | none =>
        cases hp : encodeParamsRaw ps with
        | error e =>
          simp [Subscribe.encode, varIntEncode_eq_ok h1, varIntEncode_eq_ok h2,
            varIntEncode_eq_ok h3, varIntEncode_eq_ok hft62, varIntEncode_eq_ok h11,
            hgo', hfw', hp] at hok
        | ok pb =>
          simp [Subscribe.encode, varIntEncode_eq_ok h1, varIntEncode_eq_ok h2,
            varIntEncode_eq_ok h3, varIntEncode_eq_ok hft62, varIntEncode_eq_ok h11,
            hgo', hfw', hp] at hok
          subst hok
          rw [Subscribe.decode]
          simp [List.append_assoc, varIntDecode_encodeBytes h1,
            varIntDecode_encodeBytes h2, varIntDecode_encodeBytes h3,
            fromUtf8_ok h4, hgo', hfw', varIntDecode_encodeBytes hft62,
            varIntDecode_encodeBytes h11, decodeParamsRaw_encodeParamsRaw h12 hp]
  · cases sl with
    | some loc => simp at h9
    | none =>
      cases eg with
      | some e => simp at h10
      | none =>
        cases hp : encodeParamsRaw ps with
        | error e =>
          simp [Subscribe.encode, varIntEncode_eq_ok h1, varIntEncode_eq_ok h2,
            varIntEncode_eq_ok h3, varIntEncode_eq_ok hft62, varIntEncode_eq_ok h11,
            hgo', hfw', hp] at hok
        | ok pb =>
          simp [Subscribe.encode, varIntEncode_eq_ok h1, varIntEncode_eq_ok h2,
            varIntEncode_eq_ok h3, varIntEncode_eq_ok hft62, varIntEncode_eq_ok h11,
            hgo', hfw', hp] at hok
          subst hok
          rw [Subscribe.decode]
          simp [List.append_assoc, varIntDecode_encodeBytes h1,
            varIntDecode_encodeBytes h2, varIntDecode_encodeBytes h3,
            fromUtf8_ok h4, hgo', hfw', varIntDecode_encodeBytes hft62,
            varIntDecode_encodeBytes h11, decodeParamsRaw_encodeParamsRaw h12 hp]
  · cases sl with
    | none => simp at h9
    | some loc =>
      obtain ⟨-, hlg, hlo⟩ := h9
      cases eg with
      | some e => simp at h10
      | none =>
        cases hp : encodeParamsRaw ps with
        | error e =>
          simp [Subscribe.encode, varIntEncode_eq_ok h1, varIntEncode_eq_ok h2,
            varIntEncode_eq_ok h3, varIntEncode_eq_ok hft62, varIntEncode_eq_ok h11,
            hgo', hfw', location_encode_ok hlg hlo, hp] at hok
        | ok pb =>
          simp [Subscribe.encode, varIntEncode_eq_ok h1, varIntEncode_eq_ok h2,
            varIntEncode_eq_ok h3, varIntEncode_eq_ok hft62, varIntEncode_eq_ok h11,
            hgo', hfw', location_encode_ok hlg hlo, hp] at hok
          subst hok
          rw [Subscribe.decode]
          simp [List.append_assoc, varIntDecode_encodeBytes h1,
            varIntDecode_encodeBytes h2, varIntDecode_encodeBytes h3,
            fromUtf8_ok h4, hgo', hfw', varIntDecode_encodeBytes hft62,
            location_decode_encodeBytes hlg hlo,
            varIntDecode_encodeBytes h11, decodeParamsRaw_encodeParamsRaw h12 hp]
  · cases sl with
    | none => simp at h9
    | some loc =>
      obtain ⟨-, hlg, hlo⟩ := h9
      cases eg with
      | none => simp at h10
      | some e =>
        obtain ⟨-, he62⟩ := h10
        cases hp : encodeParamsRaw ps with
        | error e' =>
          simp [Subscribe.encode, varIntEncode_eq_ok h1, varIntEncode_eq_ok h2,
            varIntEncode_eq_ok h3, varIntEncode_eq_ok hft62, varIntEncode_eq_ok h11,
            hgo', hfw', location_encode_ok hlg hlo, varIntEncode_eq_ok he62, hp] at hok
        | ok pb =>
          simp [Subscribe.encode, varIntEncode_eq_ok h1, varIntEncode_eq_ok h2,
            varIntEncode_eq_ok h3, varIntEncode_eq_ok hft62, varIntEncode_eq_ok h11,
            hgo', hfw', location_encode_ok hlg hlo, varIntEncode_eq_ok he62, hp] at hok
          subst hok
          rw [Subscribe.decode]
          simp [List.append_assoc, varIntDecode_encodeBytes h1,
            varIntDecode_encodeBytes h2, varIntDecode_encodeBytes h3,
            fromUtf8_ok h4, hgo', hfw', varIntDecode_encodeBytes hft62,
            location_decode_encodeBytes hlg hlo, varIntDecode_encodeBytes he62,
            varIntDecode_encodeBytes h11, decodeParamsRaw_encodeParamsRaw h12 hp]


theorem subscribeOk_rt {m : SubscribeOk} (h : m.Wf) {bs : List Nat}
    (hok : SubscribeOk.encode m = .ok bs) (rest : List Nat) :
    SubscribeOk.decode (bs ++ rest) = .ok (m, rest) := by
  obtain ⟨rid, ta, exp, go, ce, ll, ps⟩ := m
  obtain ⟨h1, h2, h3, h4, h5, h6, h7⟩ := h
  dsimp only at *
  have hgo' : ¬ (go = 0 ∨ 2 < go) := by rcases h4 with h | h <;> omega
  cases ll with
  | none =>
    obtain rfl := h5
    cases hp : encodeParamsRaw ps with
    | error e =>
      simp [SubscribeOk.encode, varIntEncode_eq_ok h1, varIntEncode_eq_ok h2,
        varIntEncode_eq_ok h3, varIntEncode_eq_ok h6, hgo', hp] at hok
    | ok pb =>
      simp [SubscribeOk.encode, varIntEncode_eq_ok h1, varIntEncode_eq_ok h2,
        varIntEncode_eq_ok h3, varIntEncode_eq_ok h6, hgo', hp] at hok
      subst hok
      rw [SubscribeOk.decode]
      simp [List.append_assoc, varIntDecode_encodeBytes h1, varIntDecode_encodeBytes h2,
        varIntDecode_encodeBytes h3, hgo', varIntDecode_encodeBytes h6,
        decodeParamsRaw_encodeParamsRaw h7 hp]
  | some loc =>
    obtain ⟨rfl, hlg, hlo⟩ := h5
    cases hp : encodeParamsRaw ps with
    | error e =>
      simp [SubscribeOk.encode, varIntEncode_eq_ok h1, varIntEncode_eq_ok h2,
        varIntEncode_eq_ok h3, varIntEncode_eq_ok h6, hgo',
        location_encode_ok hlg hlo, hp] at hok
    | ok pb =>
      simp [SubscribeOk.encode, varIntEncode_eq_ok h1, varIntEncode_eq_ok h2,
        varIntEncode_eq_ok h3, varIntEncode_eq_ok h6, hgo',
        location_encode_ok hlg hlo, hp] at hok
      subst hok
      rw [SubscribeOk.decode]
      simp [List.append_assoc, varIntDecode_encodeBytes h1, varIntDecode_encodeBytes h2,
        varIntDecode_encodeBytes h3, hgo', location_decode_encodeBytes hlg hlo,
        varIntDecode_encodeBytes h6, decodeParamsRaw_encodeParamsRaw h7 hp]

theorem publish_rt {m : Publish} (h : m.Wf) {bs : List Nat}
    (hok : Publish.encode m = .ok bs) (rest : List Nat) :
    Publish.decode (bs ++ rest) = .ok (m, rest) := by
  obtain ⟨rid, ns, name, ta, go, ce, ll, fw, ps⟩ := m
  obtain ⟨h1, h2, h3, h4, h5, h6, h7, h8, h9, h10, h11⟩ := h
  dsimp only at *
  have hgo' : ¬ (go = 0 ∨ 2 < go) := by rcases h6 with h | h <;> omega
  have hfw' : ¬ (fw ≠ 0 ∧ fw ≠ 1) := by rcases h9 with h | h <;> simp [h]
  cases ll with
  | none =>
    obtain rfl := h8
    cases hp : encodeParamsRaw ps with
    | error e =>
      simp [Publish.encode, varIntEncode_eq_ok h1, varIntEncode_eq_ok h2,
        varIntEncode_eq_ok h3, varIntEncode_eq_ok h5, varIntEncode_eq_ok h10,
        hgo', hp] at hok
    | ok pb =>
      simp [Publish.encode, varIntEncode_eq_ok h1, varIntEncode_eq_ok h2,
        varIntEncode_eq_ok h3, varIntEncode_eq_ok h5, varIntEncode_eq_ok h10,
        hgo', hp] at hok
      subst hok
      rw [Publish.decode]
      simp [List.append_assoc, varIntDecode_encodeBytes h1, varIntDecode_encodeBytes h2,
        varIntDecode_encodeBytes h3, fromUtf8_ok h4, varIntDecode_encodeBytes h5,
        hgo', hfw', varIntDecode_encodeBytes h10,
        decodeParamsRaw_encodeParamsRaw h11 hp]
  | some loc =>
    obtain ⟨rfl, hlg, hlo⟩ := h8
    cases hp : encodeParamsRaw ps with
    | error e =>
      simp [Publish.encode, varIntEncode_eq_ok h1, varIntEncode_eq_ok h2,
        varIntEncode_eq_ok h3, varIntEncode_eq_ok h5, varIntEncode_eq_ok h10,
        hgo', location_encode_ok hlg hlo, hp] at hok
    | ok pb =>
      simp [Publish.encode, varIntEncode_eq_ok h1, varIntEncode_eq_ok h2,
        varIntEncode_eq_ok h3, varIntEncode_eq_ok h5, varIntEncode_eq_ok h10,
        hgo', location_encode_ok hlg hlo, hp] at hok
      subst hok
      rw [Publish.decode]
      simp [List.append_assoc, varIntDecode_encodeBytes h1, varIntDecode_encodeBytes h2,
        varIntDecode_encodeBytes h3, fromUtf8_ok h4, varIntDecode_encodeBytes h5,
        hgo', hfw', location_decode_encodeBytes hlg hlo, varIntDecode_encodeBytes h10,
        decodeParamsRaw_encodeParamsRaw h11 hp]

theorem publishOk_rt {m : PublishOk} (h : m.Wf) {bs : List Nat}
    (hok : PublishOk.encode m = .ok bs) (rest : List Nat) :
    PublishOk.decode (bs ++ rest) = .ok (m, rest) := by
  obtain ⟨rid, fw, prio, go, ft, sl, eg, ps⟩ := m
  obtain ⟨h1, h2, h3, h4, h5, h6, h7, h8, h9⟩ := h
  dsimp only at *
  have hgo' : ¬ (go = 0 ∨ 2 < go) := by rcases h4 with h | h <;> omega
  have hfw' : ¬ (fw ≠ 0 ∧ fw ≠ 1) := by rcases h2 with h | h <;> simp [h]
  have hft62 : ft < 2 ^ 62 := by rcases h5 with rfl | rfl | rfl | rfl <;> norm_num
  rcases h5 with rfl | rfl | rfl | rfl
  · cases sl with
    | some loc => simp at h6
    | none =>
      cases eg with
      | some e => simp at h7
      | none =>
        cases hp : encodeParamsRaw ps with
        | error e =>
          simp [PublishOk.encode, varIntEncode_eq_ok h1, varIntEncode_eq_ok hft62,
            varIntEncode_eq_ok h8, hgo', hfw', hp] at hok
        | ok pb =>
          simp [PublishOk.encode, varIntEncode_eq_ok h1, varIntEncode_eq_ok hft62,
            varIntEncode_eq_ok h8, hgo', hfw', hp] at hok
          subst hok
          rw [PublishOk.decode]
          simp [List.append_assoc, varIntDecode_encodeBytes h1, hgo', hfw',
            varIntDecode_encodeBytes hft62, varIntDecode_encodeBytes h8,
            decodeParamsRaw_encodeParamsRaw h9 hp]
  · cases sl with
    | some loc => simp at h6
    | none =>
      cases eg with
      | some e => simp at h7
      | none =>
        cases hp : encodeParamsRaw ps with
        | error e =>
          simp [PublishOk.encode, varIntEncode_eq_ok h1, varIntEncode_eq_ok hft62,
            varIntEncode_eq_ok h8, hgo', hfw', hp] at hok
        | ok pb =>
          simp [PublishOk.encode, varIntEncode_eq_ok h1, varIntEncode_eq_ok hft62,
            varIntEncode_eq_ok h8, hgo', hfw', hp] at hok
          subst hok
          rw [PublishOk.decode]
          simp [List.append_assoc, varIntDecode_encodeBytes h1, hgo', hfw',
            varIntDecode_encodeBytes hft62, varIntDecode_encodeBytes h8,
            decodeParamsRaw_encodeParamsRaw h9 hp]
  · cases sl with
    | none => simp at h6
    | some loc =>
      obtain ⟨-, hlg, hlo⟩ := h6
      cases eg with
      | some e => simp at h7
      | none =>
        cases hp : encodeParamsRaw ps with
        | error e =>
          simp [PublishOk.encode, varIntEncode_eq_ok h1, varIntEncode_eq_ok hft62,
            varIntEncode_eq_ok h8, hgo', hfw', location_encode_ok hlg hlo, hp] at hok
        | ok pb =>
          simp [PublishOk.encode, varIntEncode_eq_ok h1, varIntEncode_eq_ok hft62,
            varIntEncode_eq_ok h8, hgo', hfw', location_encode_ok hlg hlo, hp] at hok
          subst hok
          rw [PublishOk.decode]
          simp [List.append_assoc, varIntDecode_encodeBytes h1, hgo', hfw',
            varIntDecode_encodeBytes hft62, location_decode_encodeBytes hlg hlo,
            varIntDecode_encodeBytes h8, decodeParamsRaw_encodeParamsRaw h9 hp]
  · cases sl with
    | none => simp at h6
    | some loc =>
      obtain ⟨-, hlg, hlo⟩ := h6
      cases eg with
      | none => simp at h7
      | some e =>
        obtain ⟨-, he62⟩ := h7
        cases hp : encodeParamsRaw ps with
        | error e' =>
          simp [PublishOk.encode, varIntEncode_eq_ok h1, varIntEncode_eq_ok hft62,
            varIntEncode_eq_ok h8, hgo', hfw', location_encode_ok hlg hlo,
            varIntEncode_eq_ok he62, hp] at hok
        | ok pb =>
          simp [PublishOk.encode, varIntEncode_eq_ok h1, varIntEncode_eq_ok hft62,
            varIntEncode_eq_ok h8, hgo', hfw', location_encode_ok hlg hlo,
            varIntEncode_eq_ok he62, hp] at hok
          subst hok
          rw [PublishOk.decode]
          simp [List.append_assoc, varIntDecode_encodeBytes h1, hgo', hfw',
            varIntDecode_encodeBytes hft62, location_decode_encodeBytes hlg hlo,
            varIntDecode_encodeBytes he62, varIntDecode_encodeBytes h8,
            decodeParamsRaw_encodeParamsRaw h9 hp]

theorem fetchOk_rt {m : FetchOk} (h : m.Wf) {bs : List Nat}
    (hok : FetchOk.encode m = .ok bs) (rest : List Nat) :
    FetchOk.decode (bs ++ rest) = .ok (m, rest) := by
  obtain ⟨rid, go, eot, el, ps⟩ := m
  obtain ⟨h1, h2, hg, ho, h5, h6⟩ := h
  dsimp only at *
  have hgo' : ¬ (go = 0 ∨ 2 < go) := by rcases h2 with h | h <;> omega
  cases hp : encodeParamsRaw ps with
  | error e =>
    simp [FetchOk.encode, varIntEncode_eq_ok h1, location_encode_ok hg ho,
      varIntEncode_eq_ok h5, hp] at hok
  | ok pb =>
    simp [FetchOk.encode, varIntEncode_eq_ok h1, location_encode_ok hg ho,
      varIntEncode_eq_ok h5, hp] at hok
    subst hok
    rw [FetchOk.decode]
    cases eot <;>
      simp [List.append_assoc, varIntDecode_encodeBytes h1, hgo',
        location_decode_encodeBytes hg ho, varIntDecode_encodeBytes h5,
        decodeParamsRaw_encodeParamsRaw h6 hp]

theorem fetch_rt {m : Fetch} (h : m.Wf) {bs : List Nat}
    (hok : Fetch.encode m = .ok bs) (rest : List Nat) :
    Fetch.decode (bs ++ rest) = .ok (m, rest) := by
  obtain ⟨rid, prio, go, ft, tns, tname, sl, el, jr, js, ps⟩ := m
  obtain ⟨h1, h2, h3, h4, h5, h6, h7, h8⟩ := h
  dsimp only at *
  have hgo' : ¬ 2 < go := by omega
  rcases h4 with rfl | rfl | rfl
  · rw [if_pos rfl] at h6
    obtain ⟨hm, rfl, rfl⟩ := h6
    cases tns with
    | none => simp at hm
    | some nsv =>
      cases tname with
      | none => simp at hm
      | some namev =>
        cases sl with
        | none => simp at hm
        | some slv =>
          cases el with
          | none => simp at hm
          | some elv =>
            obtain ⟨hns, hnl, hutf, hsg, hso, heg, heo⟩ := hm
            cases hp : encodeParamsRaw ps with
            | error e =>
              simp [Fetch.encode, varIntEncode_eq_ok h1, varIntEncode_eq_ok h5,
                varIntEncode_eq_ok hns, varIntEncode_eq_ok hnl,
                location_encode_ok hsg hso, location_encode_ok heg heo,
                varIntEncode_eq_ok h7, hgo', hp] at hok
            | ok pb =>
              simp [Fetch.encode, varIntEncode_eq_ok h1, varIntEncode_eq_ok h5,
                varIntEncode_eq_ok hns, varIntEncode_eq_ok hnl,
                location_encode_ok hsg hso, location_encode_ok heg heo,
                varIntEncode_eq_ok h7, hgo', hp] at hok
              subst hok
              rw [Fetch.decode]
              simp [List.append_assoc, varIntDecode_encodeBytes h1, hgo',
                varIntDecode_encodeBytes h5, varIntDecode_encodeBytes hns,
                varIntDecode_encodeBytes hnl, fromUtf8_ok hutf,
                location_decode_encodeBytes hsg hso, location_decode_encodeBytes heg heo,
                varIntDecode_encodeBytes h7, decodeParamsRaw_encodeParamsRaw h8 hp]
  · rw [if_neg (by norm_num)] at h6
    obtain ⟨hm, rfl, rfl, rfl, rfl⟩ := h6
    cases jr with
    | none => simp at hm
    | some jrv =>
      cases js with
      | none => simp at hm
      | some jsv =>
        obtain ⟨hjr, hjs⟩ := hm
        cases hp : encodeParamsRaw ps with
        | error e =>
          simp [Fetch.encode, varIntEncode_eq_ok h1, varIntEncode_eq_ok h5,
            varIntEncode_eq_ok hjr, varIntEncode_eq_ok hjs,
            varIntEncode_eq_ok h7, hgo', hp] at hok
        | ok pb =>
          simp [Fetch.encode, varIntEncode_eq_ok h1, varIntEncode_eq_ok h5,
            varIntEncode_eq_ok hjr, varIntEncode_eq_ok hjs,
            varIntEncode_eq_ok h7, hgo', hp] at hok
          subst hok
          rw [Fetch.decode]
          simp [List.append_assoc, varIntDecode_encodeBytes h1, hgo',
            varIntDecode_encodeBytes h5, varIntDecode_encodeBytes hjr,
            varIntDecode_encodeBytes hjs, varIntDecode_encodeBytes h7,
            decodeParamsRaw_encodeParamsRaw h8 hp]
  · rw [if_neg (by norm_num)] at h6
    obtain ⟨hm, rfl, rfl, rfl, rfl⟩ := h6
    cases jr with
    | none => simp at hm
    | some jrv =>
      cases js with
      | none => simp at hm
      | some jsv =>
        obtain ⟨hjr, hjs⟩ := hm
        cases hp : encodeParamsRaw ps with
        | error e =>
          simp [Fetch.encode, varIntEncode_eq_ok h1, varIntEncode_eq_ok h5,
            varIntEncode_eq_ok hjr, varIntEncode_eq_ok hjs,
            varIntEncode_eq_ok h7, hgo', hp] at hok
        | ok pb =>
          simp [Fetch.encode, varIntEncode_eq_ok h1, varIntEncode_eq_ok h5,
            varIntEncode_eq_ok hjr, varIntEncode_eq_ok hjs,
            varIntEncode_eq_ok h7, hgo', hp] at hok
          subst hok
          rw [Fetch.decode]
          simp [List.append_assoc, varIntDecode_encodeBytes h1, hgo',
            varIntDecode_encodeBytes h5, varIntDecode_encodeBytes hjr,
            varIntDecode_encodeBytes hjs, varIntDecode_encodeBytes h7,
            decodeParamsRaw_encodeParamsRaw h8 hp]


theorem varIntEncode_err {v : Nat} (hv : 2 ^ 62 ≤ v) :
    VarInt.encode v = .error .varIntRange := by
  unfold VarInt.encode
  split_ifs <;> first | rfl | omega

theorem frameOne_inv {code : Nat} (hcode : code < 2 ^ 62) {pay : Except Error (List Nat)}
    {bs : List Nat} (hok : frameOne code pay = .ok bs) :
    ∃ pl, pay = .ok pl ∧ pl.length < 2 ^ 62 ∧
      bs = varIntEncodeBytes code ++ (varIntEncodeBytes pl.length ++ pl) := by
  rw [frameOne, varIntEncode_eq_ok hcode] at hok
  cases pay with
  | error e => simp at hok
  | ok pl =>
    by_cases hl : pl.length < 2 ^ 62
    · rw [except_bind_ok] at hok
      simp only [varIntEncode_eq_ok hl, except_bind_ok, except_pure_eq,
        Except.ok.injEq] at hok
      exact ⟨pl, rfl, hl, by rw [← hok]; simp [List.append_assoc]⟩
    · simp only [except_bind_ok] at hok
      rw [varIntEncode_err (show 2 ^ 62 ≤ pl.length by omega)] at hok
      simp at hok

theorem codec_decode_framed (t : ControlMessageType) {payload : List Nat}
    {msg : ControlMessage} (hl : payload.length < 2 ^ 62)
    (hdp : decodePayload t payload = .ok (msg, [])) :
    Codec.decode (varIntEncodeBytes (ControlMessageType.code t) ++
      (varIntEncodeBytes payload.length ++ payload)) = .ok (some msg, []) := by
  have hc62 : ControlMessageType.code t < 2 ^ 62 := by
    cases t <;> norm_num [ControlMessageType.code]
  have htf : ControlMessageType.tryFrom (ControlMessageType.code t) = .ok t := by
    cases t <;> rfl
  rw [Codec.decode]
  simp [varIntDecode_encodeBytes hc62, varIntDecode_encodeBytes hl, htf, hdp,
    List.take_length, List.drop_length]

/-- C1 (amended): for every validly-constructed control message that in
addition satisfies the two canonicity conditions (`Canon`: a present
GOAWAY URI is nonempty, even-type CLIENT_SETUP parameter values are
canonical varint encodings), a successful framed encode followed by the
framed decode returns exactly the original message with the whole
buffer consumed. -/
theorem C1_roundtrip_amended (m : ControlMessage) (hwf : m.Wf) (hcanon : m.Canon)
    (bs : List Nat) (hok : Codec.encode m = .ok bs) :
    Codec.decode bs = .ok (some m, []) := by
  cases m with
  | clientSetup msg =>
    simp only [ControlMessage.Wf] at hwf
    simp only [ControlMessage.Canon] at hcanon
    simp only [Codec.encode] at hok
    obtain ⟨pl, hpl, hl, rfl⟩ := frameOne_inv (by norm_num [ControlMessageType.code]) hok
    have hdec := clientSetup_rt hwf hcanon hpl []
    rw [List.append_nil] at hdec
    exact codec_decode_framed _ hl (by simp [decodePayload, hdec])
  | goaway msg =>
    simp only [ControlMessage.Wf] at hwf
    simp only [ControlMessage.Canon] at hcanon
    simp only [Codec.encode] at hok
    obtain ⟨pl, hpl, hl, rfl⟩ := frameOne_inv (by norm_num [ControlMessageType.code]) hok
    have hdec := goaway_rt hwf hcanon hpl []
    rw [List.append_nil] at hdec
    exact codec_decode_framed _ hl (by simp [decodePayload, hdec])
  | serverSetup msg =>
    simp only [ControlMessage.Wf] at hwf
    simp only [Codec.encode] at hok
    obtain ⟨pl, hpl, hl, rfl⟩ := frameOne_inv (by norm_num [ControlMessageType.code]) hok
    have hdec := serverSetup_rt hwf hpl []
    rw [List.append_nil] at hdec
    exact codec_decode_framed _ hl (by simp [decodePayload, hdec])
  | maxRequestId msg =>
    simp only [ControlMessage.Wf] at hwf
    simp only [Codec.encode] at hok
    obtain ⟨pl, hpl, hl, rfl⟩ := frameOne_inv (by norm_num [ControlMessageType.code]) hok
    have hdec := maxRequestId_rt hwf hpl []
    rw [List.append_nil] at hdec
    exact codec_decode_framed _ hl (by simp [decodePayload, hdec])
  | requestsBlocked msg =>
    simp only [ControlMessage.Wf] at hwf
    simp only [Codec.encode] at hok
    obtain ⟨pl, hpl, hl, rfl⟩ := frameOne_inv (by norm_num [ControlMessageType.code]) hok
    have hdec := requestsBlocked_rt hwf hpl []
    rw [List.append_nil] at hdec
    exact codec_decode_framed _ hl (by simp [decodePayload, hdec])
  | subscribe msg =>
    simp only [ControlMessage.Wf] at hwf
    simp only [Codec.encode] at hok
    obtain ⟨pl, hpl, hl, rfl⟩ := frameOne_inv (by norm_num [ControlMessageType.code]) hok
    have hdec := subscribe_rt hwf hpl []
    rw [List.append_nil] at hdec
    exact codec_decode_framed _ hl (by simp [decodePayload, hdec])
  | subscribeOk msg =>
    simp only [ControlMessage.Wf] at hwf
    simp only [Codec.encode] at hok
    obtain ⟨pl, hpl, hl, rfl⟩ := frameOne_inv (by norm_num [ControlMessageType.code]) hok
    have hdec := subscribeOk_rt hwf hpl []
    rw [List.append_nil] at hdec
    exact codec_decode_framed _ hl (by simp [decodePayload, hdec])
  | subscribeError msg =>
    simp only [ControlMessage.Wf] at hwf
    simp only [Codec.encode] at hok
    obtain ⟨pl, hpl, hl, rfl⟩ := frameOne_inv (by norm_num [ControlMessageType.code]) hok
    have hdec := subscribeError_rt hwf hpl []
    rw [List.append_nil] at hdec
    exact codec_decode_framed _ hl (by simp [decodePayload, hdec])
  | subscribeUpdate msg =>
    simp only [ControlMessage.Wf] at hwf
    simp only [Codec.encode] at hok
    obtain ⟨pl, hpl, hl, rfl⟩ := frameOne_inv (by norm_num [ControlMessageType.code]) hok
    have hdec := subscribeUpdate_rt hwf hpl []
    rw [List.append_nil] at hdec
    exact codec_decode_framed _ hl (by simp [decodePayload, hdec])
  | unsubscribe msg =>
    simp only [ControlMessage.Wf] at hwf
    simp only [Codec.encode] at hok
    obtain ⟨pl, hpl, hl, rfl⟩ := frameOne_inv (by norm_num [ControlMessageType.code]) hok
    have hdec := unsubscribe_rt hwf hpl []
    rw [List.append_nil] at hdec
    exact codec_decode_framed _ hl (by simp [decodePayload, hdec])
  | subscribeDone msg =>
    simp only [ControlMessage.Wf] at hwf
    simp only [Codec.encode] at hok
    obtain ⟨pl, hpl, hl, rfl⟩ := frameOne_inv (by norm_num [ControlMessageType.code]) hok
    have hdec := subscribeDone_rt hwf hpl []
    rw [List.append_nil] at hdec
    exact codec_decode_framed _ hl (by simp [decodePayload, hdec])
  | publish msg =>
    simp only [ControlMessage.Wf] at hwf
    simp only [Codec.encode] at hok
    obtain ⟨pl, hpl, hl, rfl⟩ := frameOne_inv (by norm_num [ControlMessageType.code]) hok
    have hdec := publish_rt hwf hpl []
    rw [List.append_nil] at hdec
    exact codec_decode_framed _ hl (by simp [decodePayload, hdec])
  | publishOk msg =>
    simp only [ControlMessage.Wf] at hwf
    simp only [Codec.encode] at hok
    obtain ⟨pl, hpl, hl, rfl⟩ := frameOne_inv (by norm_num [ControlMessageType.code]) hok
    have hdec := publishOk_rt hwf hpl []
    rw [List.append_nil] at hdec
    exact codec_decode_framed _ hl (by simp [decodePayload, hdec])
  | publishError msg =>
    simp only [ControlMessage.Wf] at hwf
    simp only [Codec.encode] at hok
    obtain ⟨pl, hpl, hl, rfl⟩ := frameOne_inv (by norm_num [ControlMessageType.code]) hok
    have hdec := publishError_rt hwf hpl []
    rw [List.append_nil] at hdec
    exact codec_decode_framed _ hl (by simp [decodePayload, hdec])
  | fetch msg =>
    simp only [ControlMessage.Wf] at hwf
    simp only [Codec.encode] at hok
    obtain ⟨pl, hpl, hl, rfl⟩ := frameOne_inv (by norm_num [ControlMessageType.code]) hok
    have hdec := fetch_rt hwf hpl []
    rw [List.append_nil] at hdec
    exact codec_decode_framed _ hl (by simp [decodePayload, hdec])
  | fetchOk msg =>
    simp only [ControlMessage.Wf] at hwf
    simp only [Codec.encode] at hok
    obtain ⟨pl, hpl, hl, rfl⟩ := frameOne_inv (by norm_num [ControlMessageType.code]) hok
    have hdec := fetchOk_rt hwf hpl []
    rw [List.append_nil] at hdec
    exact codec_decode_framed _ hl (by simp [decodePayload, hdec])
  | fetchError msg =>
    simp only [ControlMessage.Wf] at hwf
    simp only [Codec.encode] at hok
    obtain ⟨pl, hpl, hl, rfl⟩ := frameOne_inv (by norm_num [ControlMessageType.code]) hok
    have hdec := fetchError_rt hwf hpl []
    rw [List.append_nil] at hdec
    exact codec_decode_framed _ hl (by simp [decodePayload, hdec])
  | fetchCancel msg =>
    simp only [ControlMessage.Wf] at hwf
    simp only [Codec.encode] at hok
    obtain ⟨pl, hpl, hl, rfl⟩ := frameOne_inv (by norm_num [ControlMessageType.code]) hok
    have hdec := fetchCancel_rt hwf hpl []
    rw [List.append_nil] at hdec
    exact codec_decode_framed _ hl (by simp [decodePayload, hdec])
  | trackStatusRequest msg =>
    simp only [ControlMessage.Wf] at hwf
    simp only [Codec.encode] at hok
    obtain ⟨pl, hpl, hl, rfl⟩ := frameOne_inv (by norm_num [ControlMessageType.code]) hok
    have hdec := trackStatusRequest_rt hwf hpl []
    rw [List.append_nil] at hdec
    exact codec_decode_framed _ hl (by simp [decodePayload, hdec])
  | trackStatus msg =>
    simp only [ControlMessage.Wf] at hwf
    simp only [Codec.encode] at hok
    obtain ⟨pl, hpl, hl, rfl⟩ := frameOne_inv (by norm_num [ControlMessageType.code]) hok
    have hdec := trackStatus_rt hwf hpl []
    rw [List.append_nil] at hdec
    exact codec_decode_framed _ hl (by simp [decodePayload, hdec])
  | announce msg =>
    simp only [ControlMessage.Wf] at hwf
    simp only [Codec.encode] at hok
    obtain ⟨pl, hpl, hl, rfl⟩ := frameOne_inv (by norm_num [ControlMessageType.code]) hok
    have hdec := announce_rt hwf hpl []
    rw [List.append_nil] at hdec
    exact codec_decode_framed _ hl (by simp [decodePayload, hdec])
  | announceOk msg =>
    simp only [ControlMessage.Wf] at hwf
    simp only [Codec.encode] at hok
    obtain ⟨pl, hpl, hl, rfl⟩ := frameOne_inv (by norm_num [ControlMessageType.code]) hok
    have hdec := announceOk_rt hwf hpl []
    rw [List.append_nil] at hdec
    exact codec_decode_framed _ hl (by simp [decodePayload, hdec])
  | announceError msg =>
    simp only [ControlMessage.Wf] at hwf
    simp only [Codec.encode] at hok
    obtain ⟨pl, hpl, hl, rfl⟩ := frameOne_inv (by norm_num [ControlMessageType.code]) hok
    have hdec := announceError_rt hwf hpl []
    rw [List.append_nil] at hdec
    exact codec_decode_framed _ hl (by simp [decodePayload, hdec])
  | unannounce msg =>
    simp only [ControlMessage.Wf] at hwf
    simp only [Codec.encode] at hok
    obtain ⟨pl, hpl, hl, rfl⟩ := frameOne_inv (by norm_num [ControlMessageType.code]) hok
    have hdec := unannounce_rt hwf hpl []
    rw [List.append_nil] at hdec
    exact codec_decode_framed _ hl (by simp [decodePayload, hdec])
  | announceCancel msg =>
    simp only [ControlMessage.Wf] at hwf
    simp only [Codec.encode] at hok
    obtain ⟨pl, hpl, hl, rfl⟩ := frameOne_inv (by norm_num [ControlMessageType.code]) hok
    have hdec := announceCancel_rt hwf hpl []
    rw [List.append_nil] at hdec
    exact codec_decode_framed _ hl (by simp [decodePayload, hdec])
  | subscribeAnnounces msg =>
    simp only [ControlMessage.Wf] at hwf
    simp only [Codec.encode] at hok
    obtain ⟨pl, hpl, hl, rfl⟩ := frameOne_inv (by norm_num [ControlMessageType.code]) hok
    have hdec := subscribeAnnounces_rt hwf hpl []
    rw [List.append_nil] at hdec
    exact codec_decode_framed _ hl (by simp [decodePayload, hdec])
  | subscribeAnnouncesOk msg =>
    simp only [ControlMessage.Wf] at hwf
    simp only [Codec.encode] at hok
    obtain ⟨pl, hpl, hl, rfl⟩ := frameOne_inv (by norm_num [ControlMessageType.code]) hok
    have hdec := subscribeAnnouncesOk_rt hwf hpl []
    rw [List.append_nil] at hdec
    exact codec_decode_framed _ hl (by simp [decodePayload, hdec])
  | subscribeAnnouncesError msg =>
    simp only [ControlMessage.Wf] at hwf
    simp only [Codec.encode] at hok
    obtain ⟨pl, hpl, hl, rfl⟩ := frameOne_inv (by norm_num [ControlMessageType.code]) hok
    have hdec := subscribeAnnouncesError_rt hwf hpl []
    rw [List.append_nil] at hdec
    exact codec_decode_framed _ hl (by simp [decodePayload, hdec])
  | unsubscribeAnnounces msg =>
    simp only [ControlMessage.Wf] at hwf
    simp only [Codec.encode] at hok
    obtain ⟨pl, hpl, hl, rfl⟩ := frameOne_inv (by norm_num [ControlMessageType.code]) hok
    have hdec := unsubscribeAnnounces_rt hwf hpl []
    rw [List.append_nil] at hdec
    exact codec_decode_framed _ hl (by simp [decodePayload, hdec])


/-- C1 (counterexample): the claim's round-trip fails on two of the
inputs it explicitly includes. A GOAWAY whose `new_session_uri` is
`Some ""` encodes to a zero URI length and decodes back to `None`; a
CLIENT_SETUP even-type parameter stored as the valid but non-canonical
two-byte varint `[0x40, 0x05]` decodes back re-serialized as `[0x05]`.
Both are validly constructed, both framed encodes succeed and both
decodes consume the buffer, yet the decoded message differs. -/
theorem C1_counterexample :
    (ControlMessage.Wf (.goaway ⟨some []⟩) ∧
      Codec.encode (.goaway ⟨some []⟩) = .ok [0x10, 0x01, 0x00] ∧
      Codec.decode [0x10, 0x01, 0x00] = .ok (some (.goaway ⟨none⟩), []) ∧
      ControlMessage.goaway ⟨none⟩ ≠ ControlMessage.goaway ⟨some []⟩) ∧
    (ControlMessage.Wf (.clientSetup ⟨[], [⟨2, [0x40, 0x05]⟩]⟩) ∧
      Codec.encode (.clientSetup ⟨[], [⟨2, [0x40, 0x05]⟩]⟩) =
        .ok [0x20, 0x05, 0x00, 0x01, 0x02, 0x40, 0x05] ∧
      Codec.decode [0x20, 0x05, 0x00, 0x01, 0x02, 0x40, 0x05] =
        .ok (some (.clientSetup ⟨[], [⟨2, [0x05]⟩]⟩), []) ∧
      ControlMessage.clientSetup ⟨[], [⟨2, [0x05]⟩]⟩ ≠
        ControlMessage.clientSetup ⟨[], [⟨2, [0x40, 0x05]⟩]⟩) := by
  refine ⟨⟨⟨by norm_num, rfl⟩, rfl, rfl, by decide⟩,
    ⟨⟨by norm_num, by simp, by norm_num, ?_⟩, rfl, rfl, by decide⟩⟩
  intro p hp
  simp only [List.mem_singleton] at hp
  subst hp
  refine ⟨by norm_num, ?_⟩
  rw [if_pos (by norm_num)]
  exact ⟨5, rfl⟩

/-- C1 (witness): the amended round-trip applied to the frame-codec
test vector `RequestsBlocked { maximum_request_id: 42 }`, whose framed
encoding is `[0x1A, 0x01, 0x2A]`. -/
theorem C1_roundtrip_amended_witness :
    Codec.decode [0x1A, 0x01, 0x2A] = .ok (some (.requestsBlocked ⟨42⟩), []) :=
  C1_roundtrip_amended (.requestsBlocked ⟨42⟩) (by norm_num [ControlMessage.Wf,
    RequestsBlocked.Wf]) (by exact trivial) [0x1A, 0x01, 0x2A] rfl

/-- C2: the framed control-message decoder answers "incomplete" with
`Ok(None)` (never an error) on a buffer with no complete frame, but it
does NOT leave the input buffer unchanged once the type varint (and
possibly the length varint) have been read: on `[0x1A]` (just the
REQUESTS_BLOCKED type byte) and on `[0x1A, 0x01]` (type and length) the
decoder returns `Ok(None)` with an empty buffer, losing the consumed
header bytes, in contradiction with the spec's MUST. Only the
varint-level incompleteness case (`[0x40]`, and the empty buffer)
leaves the buffer intact. -/
theorem C2_streaming_state :
    Codec.decode [] = .ok (none, []) ∧
    Codec.decode [0x40] = .ok (none, [0x40]) ∧
    Codec.decode [0x1A] = .ok (none, []) ∧
    Codec.decode [0x1A, 0x01] = .ok (none, []) ∧ ([] : List Nat) ≠ [0x1A] :=
  ⟨rfl, rfl, rfl, rfl, by decide⟩

/-- C5: for every `v < 2^62` the varint encoder succeeds, produces the
shortest RFC 9000 length class that fits `v` (its length equals the
class length, that class fits `v`, and no legal shorter class does),
and the encoding decodes back to `v` consuming exactly its bytes; the
RFC example vectors hold; for every `v ≥ 2^62` (including `2^62`
itself) the encoder fails with `VarIntRange` and, as modelled, produces
no bytes. -/
theorem C5_varint_encode :
    (∀ v : Nat, v < 2 ^ 62 →
      VarInt.encode v = .ok (varIntEncodeBytes v) ∧
      (varIntEncodeBytes v).length = varIntClassLen v ∧
      varIntFits (varIntClassLen v) v ∧
      (∀ c, (c = 1 ∨ c = 2 ∨ c = 4 ∨ c = 8) → varIntFits c v → varIntClassLen v ≤ c) ∧
      VarInt.decode (varIntEncodeBytes v) = some (v, [])) ∧
    VarInt.encode 0 = .ok [0x00] ∧
    VarInt.encode 63 = .ok [0x3F] ∧
    VarInt.encode 64 = .ok [0x40, 0x40] ∧
    VarInt.encode 16383 = .ok [0x7F, 0xFF] ∧
    VarInt.encode 16384 = .ok [0x80, 0x00, 0x40, 0x00] ∧
    VarInt.encode 1073741823 = .ok [0xBF, 0xFF, 0xFF, 0xFF] ∧
    VarInt.encode 1073741824 = .ok [0xC0, 0x00, 0x00, 0x00, 0x40, 0x00, 0x00, 0x00] ∧
    (∀ v : Nat, 2 ^ 62 ≤ v → VarInt.encode v = .error .varIntRange) := by
  refine ⟨fun v hv => ⟨varIntEncode_eq_ok hv, varIntEncodeBytes_length v,
    varIntClassLen_fits hv, fun c hc hf => varIntClassLen_min hc hf, ?_⟩,
    rfl, rfl, rfl, rfl, rfl, rfl, rfl,
    fun v hv => varIntEncode_err hv⟩
  have h := varIntDecode_encodeBytes hv []
  rwa [List.append_nil] at h

/-- C5 (witness): the universal clauses instantiated at `v = 64` and at
`v = 2^62` exactly. -/
theorem C5_varint_encode_witness :
    VarInt.encode 64 = .ok (varIntEncodeBytes 64) ∧
    VarInt.decode (varIntEncodeBytes 64) = some (64, []) ∧
    varIntClassLen 64 ≤ 2 ∧
    VarInt.encode (2 ^ 62) = .error .varIntRange :=
  ⟨(C5_varint_encode.1 64 (by norm_num)).1,
    (C5_varint_encode.1 64 (by norm_num)).2.2.2.2,
    (C5_varint_encode.1 64 (by norm_num)).2.2.2.1 2 (by norm_num) (by norm_num [varIntFits]),
    C5_varint_encode.2.2.2.2.2.2.2.2 (2 ^ 62) le_rfl⟩


theorem assocLookup_insert_self {β : Type} (l : List (Nat × β)) (k : Nat) (v : β) :
    assocLookup (assocInsert l k v) k = some v := by
  simp [assocInsert, assocLookup]

theorem assocLookup_remove_self {β : Type} (l : List (Nat × β)) (k : Nat) :
    assocLookup (assocRemove l k) k = none := by
  induction l with
  | nil => rfl
  | cons p rest ih =>
    obtain ⟨a, b⟩ := p
    by_cases h : a = k <;> simp [assocRemove, h, assocLookup, ih]

/-- C3 (counterexample): on a fresh session, a GOAWAY carrying a URI
received as server produces exactly the claimed `ProtocolViolation`,
but the resulting session has `received_goaway = true`, not `false` as
the claim states: the flag is set before the URI check. -/
theorem C3_counterexample :
    Session.new.handle_goaway ⟨some [0x61]⟩ true =
      (.error (.protocolViolation "GOAWAY from client contained URI"),
        { state := .initializing, received_goaway := true, max_request_id := 0 }) ∧
    ({ state := .initializing, received_goaway := true,
        max_request_id := 0 } : Session).received_goaway ≠ false :=
  ⟨rfl, by decide⟩

/-- C3 (amended): for every session with `received_goaway = false`,
`handle_goaway` as server on a GOAWAY with a present URI returns
`ProtocolViolation("GOAWAY from client contained URI")` and leaves the
lifecycle state unchanged, but `received_goaway` has already been set
to `true` before the URI check fires. -/
theorem C3_goaway_uri_rejected (s : Session) (msg : Goaway)
    (h : s.received_goaway = false) (hm : msg.new_session_uri.isSome = true) :
    (s.handle_goaway msg true).1 =
      .error (.protocolViolation "GOAWAY from client contained URI") ∧
    (s.handle_goaway msg true).2.state = s.state ∧
    (s.handle_goaway msg true).2.received_goaway = true := by
  simp [Session.handle_goaway, h, hm]

/-- C3 (witness): the amended statement at a fresh session and a GOAWAY
carrying the URI `"a"`. -/
theorem C3_goaway_uri_rejected_witness :
    (Session.new.handle_goaway ⟨some [0x61]⟩ true).1 =
      .error (.protocolViolation "GOAWAY from client contained URI") ∧
    (Session.new.handle_goaway ⟨some [0x61]⟩ true).2.state = Session.new.state ∧
    (Session.new.handle_goaway ⟨some [0x61]⟩ true).2.received_goaway = true :=
  C3_goaway_uri_rejected Session.new ⟨some [0x61]⟩ rfl rfl

/-- C6: the stored `max_request_id` of the session and of the track
manager is strictly monotone: a value at most the current one yields
`ProtocolViolation("MAX_REQUEST_ID decreased")` and leaves the store
unchanged; a strictly greater value succeeds and installs it; and the
5 / 6 / 6 example behaves as claimed on fresh state. -/
theorem C6_max_request_id_monotone :
    (∀ (s : Session) (v : Nat), v ≤ s.max_request_id →
      s.handle_max_request_id ⟨v⟩ =
        (.error (.protocolViolation "MAX_REQUEST_ID decreased"), s)) ∧
    (∀ (s : Session) (v : Nat), s.max_request_id < v →
      s.handle_max_request_id ⟨v⟩ = (.ok (), { s with max_request_id := v })) ∧
    (∀ (tm : TrackManager) (v : Nat), v ≤ tm.max_request_id →
      tm.handle_max_request_id v =
        (.error (.protocolViolation "MAX_REQUEST_ID decreased"), tm)) ∧
    (∀ (tm : TrackManager) (v : Nat), tm.max_request_id < v →
      tm.handle_max_request_id v = (.ok (), { tm with max_request_id := v })) ∧
    ((Session.new.handle_max_request_id ⟨5⟩).1 = .ok () ∧
      ((Session.new.handle_max_request_id ⟨5⟩).2.handle_max_request_id ⟨6⟩).1 = .ok () ∧
      (((Session.new.handle_max_request_id ⟨5⟩).2.handle_max_request_id
          ⟨6⟩).2.handle_max_request_id ⟨6⟩).1 =
        .error (.protocolViolation "MAX_REQUEST_ID decreased")) := by
  refine ⟨?_, ?_, ?_, ?_, rfl, rfl, rfl⟩
  · intro s v h
    rw [Session.handle_max_request_id, if_pos h]
  · intro s v h
    have h' : ¬ v ≤ s.max_request_id := by omega
    simp [Session.handle_max_request_id, h']
  · intro tm v h
    rw [TrackManager.handle_max_request_id, if_pos h]
  · intro tm v h
    have h' : ¬ v ≤ tm.max_request_id := by omega
    simp [TrackManager.handle_max_request_id, h']

/-- C6 (witness): the universal clauses at concrete stores. -/
theorem C6_max_request_id_monotone_witness :
    Session.new.handle_max_request_id ⟨0⟩ =
      (.error (.protocolViolation "MAX_REQUEST_ID decreased"), Session.new) ∧
    Session.new.handle_max_request_id ⟨5⟩ =
      (.ok (), { Session.new with max_request_id := 5 }) ∧
    TrackManager.default.handle_max_request_id 0 =
      (.error (.protocolViolation "MAX_REQUEST_ID decreased"), TrackManager.default) ∧
    TrackManager.default.handle_max_request_id 7 =
      (.ok (), { TrackManager.default with max_request_id := 7 }) :=
  ⟨C6_max_request_id_monotone.1 Session.new 0 (by norm_num [Session.new]),
    C6_max_request_id_monotone.2.1 Session.new 5 (by norm_num [Session.new]),
    C6_max_request_id_monotone.2.2.1 TrackManager.default 0
      (by norm_num [TrackManager.default]),
    C6_max_request_id_monotone.2.2.2.1 TrackManager.default 7
      (by norm_num [TrackManager.default])⟩

/-- C7 (counterexample): the second of two successive `handle_goaway`
calls does produce a `ProtocolViolation`, but its reason string is
"multiple GOAWAY messages", not the claimed "multiple GOAWAY". -/
theorem C7_counterexample :
    ((Session.new.handle_goaway ⟨none⟩ false).2.handle_goaway ⟨none⟩ false).1 =
      .error (.protocolViolation "multiple GOAWAY messages") ∧
    Error.protocolViolation "multiple GOAWAY messages" ≠
      Error.protocolViolation "multiple GOAWAY" :=
  ⟨rfl, by decide⟩

/-- C7 (amended): `received_goaway` is set at most once — once it is
true every further `handle_goaway` call (any arguments) returns
`ProtocolViolation("multiple GOAWAY messages")` and leaves the session
unchanged; a call that passes validation sets the flag; and after any
first call on a session with the flag clear, a second call fails with
that violation. -/
theorem C7_goaway_at_most_once :
    (∀ (s : Session) (msg : Goaway) (b : Bool), s.received_goaway = true →
      s.handle_goaway msg b =
        (.error (.protocolViolation "multiple GOAWAY messages"), s)) ∧
    (∀ (s : Session) (msg : Goaway) (b : Bool) (s' : Session),
      s.handle_goaway msg b = (.ok (), s') → s'.received_goaway = true) ∧
    (∀ (s : Session) (m1 m2 : Goaway) (b1 b2 : Bool), s.received_goaway = false →
      ((s.handle_goaway m1 b1).2.handle_goaway m2 b2).1 =
        .error (.protocolViolation "multiple GOAWAY messages")) := by
  refine ⟨?_, ?_, ?_⟩
  · intro s msg b h
    simp [Session.handle_goaway, h]
  · intro s msg b s' h
    rw [Session.handle_goaway] at h
    split_ifs at h with h1 h2
    · simp at h
    · simp at h
    · simp only [Prod.mk.injEq] at h
      rw [← h.2]
  · intro s m1 m2 b1 b2 h
    have h2 : (s.handle_goaway m1 b1).2.received_goaway = true := by
      rw [Session.handle_goaway, if_neg (by simp [h])]
      split_ifs <;> rfl
    rcases hc : s.handle_goaway m1 b1 with ⟨r1, s1⟩
    rw [hc] at h2
    dsimp only at h2
    simp [Session.handle_goaway, h2]

/-- C7 (witness): the amended clauses at concrete sessions. -/
theorem C7_goaway_at_most_once_witness :
    ({ state := .active, received_goaway := true, max_request_id := 0 } :
        Session).handle_goaway ⟨none⟩ false =
      (.error (.protocolViolation "multiple GOAWAY messages"),
        { state := .active, received_goaway := true, max_request_id := 0 }) ∧
    (((Session.new.handle_goaway ⟨none⟩ true).2.handle_goaway ⟨none⟩ false).1 =
      .error (.protocolViolation "multiple GOAWAY messages")) :=
  ⟨C7_goaway_at_most_once.1 _ ⟨none⟩ false rfl,
    C7_goaway_at_most_once.2.2 Session.new ⟨none⟩ ⟨none⟩ true false rfl⟩


theorem allocRun_exhausted (k : Nat) (tm : TrackManager)
    (h : tm.max_request_id ≤ tm.request_counter) :
    allocRun tm k = (List.replicate k (.error .tooManyRequests), tm) := by
  induction k with
  | zero => rfl
  | succ n ih =>
    rw [allocRun]
    simp [TrackManager.new_request_id, h, ih, List.replicate_succ]

theorem allocRun_results (n : Nat) : ∀ (tm : TrackManager) (k : Nat),
    tm.request_counter + n = tm.max_request_id →
    (allocRun tm (n + k)).1 =
      (List.range' tm.request_counter n).map .ok ++
        List.replicate k (.error .tooManyRequests) := by
  induction n with
  | zero =>
    intro tm k h
    rw [Nat.zero_add, allocRun_exhausted k tm (by omega)]
    simp [List.range']
  | succ n ih =>
    intro tm k h
    have hlt : ¬ tm.max_request_id ≤ tm.request_counter := by omega
    rw [show n + 1 + k = (n + k) + 1 from by omega, allocRun]
    simp only [TrackManager.new_request_id, if_neg hlt]
    have := ih { tm with request_counter := tm.request_counter + 1 } k (by dsimp; omega)
    dsimp at this ⊢
    rw [this, List.range']
    simp

/-- C4: after a single `handle_max_request_id N` (with `N > 0`) on a
fresh track manager, a run of `N + k` `new_request_id` calls succeeds
on exactly the first `N` calls, returning `0, 1, …, N−1` in order, and
returns `TooManyRequests` on each of the `k` calls after that; and at
every successful allocation the counter stays within the advertised
budget (`request_counter ≤ max_request_id` after the increment). -/
theorem C4_request_id_budget :
    (∀ N k : Nat, 0 < N →
      (TrackManager.default.handle_max_request_id N).1 = .ok () ∧
      (allocRun (TrackManager.default.handle_max_request_id N).2 (N + k)).1 =
        (List.range N).map .ok ++ List.replicate k (.error .tooManyRequests)) ∧
    (∀ (tm : TrackManager) (rid : Nat) (tm' : TrackManager),
      tm.new_request_id = (.ok rid, tm') →
      rid = tm.request_counter ∧ tm'.request_counter = tm.request_counter + 1 ∧
        tm'.request_counter ≤ tm'.max_request_id) := by
  constructor
  · intro N k hN
    have hne : ¬ N ≤ (TrackManager.default).max_request_id := by
      simp [TrackManager.default]
      omega
    constructor
    · rw [TrackManager.handle_max_request_id, if_neg hne]
    · rw [TrackManager.handle_max_request_id, if_neg hne]
      have := allocRun_results N { TrackManager.default with max_request_id := N } k
        (by simp [TrackManager.default])
      dsimp [TrackManager.default] at this ⊢
      rw [this, List.range_eq_range']
  · intro tm rid tm' h
    rw [TrackManager.new_request_id] at h
    split_ifs at h with hmax
    · simp at h
    · simp only [Prod.mk.injEq, Except.ok.injEq] at h
      obtain ⟨h1, h2⟩ := h
      rw [← h1, ← h2]
      dsimp
      omega

/-- C4 (witness): the budget run with `N = 2`, `k = 1`, and the
allocation invariant at a concrete manager with counter 0 and budget 1. -/
theorem C4_request_id_budget_witness :
    (allocRun (TrackManager.default.handle_max_request_id 2).2 3).1 =
      [.ok 0, .ok 1, .error .tooManyRequests] ∧
    (0 = (TrackManager.default.handle_max_request_id 1).2.request_counter ∧
      ({ TrackManager.default with max_request_id := 1, request_counter := 1 } : TrackManager).request_counter =
        (TrackManager.default.handle_max_request_id 1).2.request_counter + 1 ∧
      ({ TrackManager.default with max_request_id := 1, request_counter := 1 } : TrackManager).request_counter ≤
        ({ TrackManager.default with max_request_id := 1, request_counter := 1 } : TrackManager).max_request_id) :=
  ⟨(C4_request_id_budget.1 2 1 (by norm_num)).2,
    C4_request_id_budget.2 (TrackManager.default.handle_max_request_id 1).2 0
      { TrackManager.default with max_request_id := 1, request_counter := 1 } rfl⟩

theorem handle_subscribe_ok_found {tm : TrackManager} {ok : SubscribeOk} {name : String}
    (hreq : assocLookup tm.requests ok.request_id = some name)
    (hali : assocLookup tm.aliases ok.track_alias = none) :
    (tm.handle_subscribe_ok ok).1 = .ok () ∧
    (tm.handle_subscribe_ok ok).2.aliases = assocInsert tm.aliases ok.track_alias name ∧
    (tm.handle_subscribe_ok ok).2.requests = assocRemove tm.requests ok.request_id := by
  rw [TrackManager.handle_subscribe_ok]
  simp only [hreq]
  rw [TrackManager.set_track_alias, TrackManager.assign_alias]
  dsimp only
  rw [hali]
  simp only [Option.isSome_none, Bool.false_eq_true, if_false]
  cases hst : assocLookupS
      ({ tm with requests := assocRemove tm.requests ok.request_id } :
        TrackManager).tracks name <;>
    simp [hst]

theorem assocLookupS_insert_self {β : Type} (l : List (String × β)) (k : String) (v : β) :
    assocLookupS (assocInsertS l k v) k = some v := by
  simp [assocInsertS, assocLookupS]

theorem subscribe_track_inv {tm : TrackManager} {name : String} {rid : Nat}
    {tm1 : TrackManager} (h : tm.subscribe_track name = (.ok rid, tm1)) :
    tm1.aliases = tm.aliases ∧ tm1.requests = assocInsert tm.requests rid name := by
  rw [TrackManager.subscribe_track, TrackManager.add_track,
    TrackManager.new_request_id] at h
  cases h0 : assocLookupS tm.tracks name with
  | some st0 =>
    rw [h0] at h
    dsimp only at h
    split_ifs at h with hmax
    · simp at h
    · dsimp only at h
      rw [h0] at h
      dsimp only at h
      simp only [Prod.mk.injEq, Except.ok.injEq] at h
      obtain ⟨h2, h3⟩ := h
      rw [← h3, h2]
      exact ⟨rfl, rfl⟩
  | none =>
    rw [h0] at h
    dsimp only at h
    split_ifs at h with hmax
    · simp at h
    · dsimp only at h
      rw [assocLookupS_insert_self] at h
      dsimp only at h
      simp only [Prod.mk.injEq, Except.ok.injEq] at h
      obtain ⟨h2, h3⟩ := h
      rw [← h3, h2]
      exact ⟨rfl, rfl⟩


/-- C8: after a successful `subscribe_track name = (id, stream)` on a
manager where alias `A` is unbound, `handle_subscribe_ok` with
`request_id = id`, `track_alias = A` succeeds, after which
`resolve_alias A = some name` and the `requests` map no longer contains
`id`; and a `handle_subscribe_ok` whose request id has no entry yields
`ProtocolViolation("unknown request")`. -/
theorem C8_subscribe_ok_binding :
    (∀ (tm : TrackManager) (name : String) (rid : Nat) (tm1 : TrackManager)
      (ok : SubscribeOk), tm.subscribe_track name = (.ok rid, tm1) →
      ok.request_id = rid → tm1.resolve_alias ok.track_alias = none →
      (tm1.handle_subscribe_ok ok).1 = .ok () ∧
      (tm1.handle_subscribe_ok ok).2.resolve_alias ok.track_alias = some name ∧
      assocLookup (tm1.handle_subscribe_ok ok).2.requests ok.request_id = none) ∧
    (∀ (tm : TrackManager) (ok : SubscribeOk),
      assocLookup tm.requests ok.request_id = none →
      (tm.handle_subscribe_ok ok).1 = .error (.protocolViolation "unknown request")) := by
  constructor
  · intro tm name rid tm1 ok hsub hrid hali
    obtain ⟨hA, hR⟩ := subscribe_track_inv hsub
    have hreq : assocLookup tm1.requests ok.request_id = some name := by
      rw [hR, hrid]
      exact assocLookup_insert_self _ _ _
    rw [TrackManager.resolve_alias] at hali
    obtain ⟨hok1, hok2, hok3⟩ := handle_subscribe_ok_found hreq hali
    refine ⟨hok1, ?_, ?_⟩
    · rw [TrackManager.resolve_alias, hok2]
      exact assocLookup_insert_self _ _ _
    · rw [hok3, hR, hrid, assocInsert]
      simp [assocLookup, assocLookup_remove_self]
  · intro tm ok h
    rw [TrackManager.handle_subscribe_ok]
    simp [h]

/-- C8 (witness): a fresh manager with budget 1, a subscription to
"video" with request id 0, and SUBSCRIBE_OK binding alias 7. -/
theorem C8_subscribe_ok_binding_witness :
    (((TrackManager.default.handle_max_request_id 1).2.subscribe_track
        "video").2.handle_subscribe_ok
      ⟨0, 7, 0, 1, false, none, []⟩).1 = .ok () ∧
    (((TrackManager.default.handle_max_request_id 1).2.subscribe_track
        "video").2.handle_subscribe_ok
      ⟨0, 7, 0, 1, false, none, []⟩).2.resolve_alias 7 = some "video" ∧
    assocLookup
      (((TrackManager.default.handle_max_request_id 1).2.subscribe_track
          "video").2.handle_subscribe_ok
        ⟨0, 7, 0, 1, false, none, []⟩).2.requests 0 = none ∧
    (TrackManager.default.handle_subscribe_ok ⟨3, 7, 0, 1, false, none, []⟩).1 =
      .error (.protocolViolation "unknown request") := by
  obtain ⟨ha, hb, hc⟩ := C8_subscribe_ok_binding.1
    (TrackManager.default.handle_max_request_id 1).2 "video" 0
    ((TrackManager.default.handle_max_request_id 1).2.subscribe_track "video").2
    ⟨0, 7, 0, 1, false, none, []⟩ rfl rfl rfl
  exact ⟨ha, hb, hc,
    C8_subscribe_ok_binding.2 TrackManager.default ⟨3, 7, 0, 1, false, none, []⟩ rfl⟩

/-- C10: when the request id is known but the alias is already bound,
`handle_subscribe_ok` fails with `DuplicateTrackAlias` yet has already
removed the `requests` entry, so the operation is not atomic on error
and a retry with the same request id fails with
`ProtocolViolation("unknown request")`. -/
theorem C10_subscribe_ok_nonatomic :
    ∀ (tm : TrackManager) (ok : SubscribeOk) (name : String),
      assocLookup tm.requests ok.request_id = some name →
      (assocLookup tm.aliases ok.track_alias).isSome = true →
      (tm.handle_subscribe_ok ok).1 = .error (.duplicateTrackAlias ok.track_alias) ∧
      assocLookup (tm.handle_subscribe_ok ok).2.requests ok.request_id = none ∧
      ((tm.handle_subscribe_ok ok).2.handle_subscribe_ok ok).1 =
        .error (.protocolViolation "unknown request") := by
  intro tm ok name hreq hdup
  have h1 : tm.handle_subscribe_ok ok =
      (.error (.duplicateTrackAlias ok.track_alias),
        { tm with requests := assocRemove tm.requests ok.request_id }) := by
    rw [TrackManager.handle_subscribe_ok]
    simp only [hreq]
    rw [TrackManager.set_track_alias, TrackManager.assign_alias]
    dsimp only
    simp [hdup]
  refine ⟨by rw [h1], ?_, ?_⟩
  · rw [h1]
    exact assocLookup_remove_self _ _
  · rw [h1]
    dsimp only
    rw [TrackManager.handle_subscribe_ok]
    simp [assocLookup_remove_self]

/-- C10 (witness): requests `{0 ↦ "video"}`, aliases `{7 ↦ "audio"}`,
and SUBSCRIBE_OK with request id 0, alias 7. -/
theorem C10_subscribe_ok_nonatomic_witness :
    (({ TrackManager.default with requests := [(0, "video")], aliases := [(7, "audio")] } : TrackManager).handle_subscribe_ok
        ⟨0, 7, 0, 1, false, none, []⟩).1 = .error (.duplicateTrackAlias 7) ∧
    assocLookup
      (({ TrackManager.default with requests := [(0, "video")], aliases := [(7, "audio")] } : TrackManager).handle_subscribe_ok
          ⟨0, 7, 0, 1, false, none, []⟩).2.requests 0 = none ∧
    ((({ TrackManager.default with requests := [(0, "video")], aliases := [(7, "audio")] } : TrackManager).handle_subscribe_ok
          ⟨0, 7, 0, 1, false, none, []⟩).2.handle_subscribe_ok
        ⟨0, 7, 0, 1, false, none, []⟩).1 =
      .error (.protocolViolation "unknown request") :=
  C10_subscribe_ok_nonatomic
    { TrackManager.default with requests := [(0, "video")], aliases := [(7, "audio")] }
    ⟨0, 7, 0, 1, false, none, []⟩ "video" rfl rfl


theorem location_decode_encodeBytes' {g o : Nat} (hg : g < 2 ^ 62) (ho : o < 2 ^ 62)
    (rest : List Nat) :
    Location.decode (varIntEncodeBytes g ++ (varIntEncodeBytes o ++ rest)) =
      .ok (⟨g, o⟩, rest) := by
  simp [Location.decode, varIntDecode_encodeBytes hg, varIntDecode_encodeBytes ho]

/-- C9 (counterexample): a SUBSCRIBE with `filter_type = 4` and no
start location does fail to encode, but with an invalid-data I/O
error, not the `ProtocolViolation` variant the claim names. -/
theorem C9_counterexample :
    (¬ ∃ reason, Subscribe.encode ⟨1, 2, [0x76], 3, 1, 1, 4, none, some 20, []⟩ =
        .error (.protocolViolation reason)) ∧
    Subscribe.encode ⟨1, 2, [0x76], 3, 1, 1, 4, none, some 20, []⟩ =
      .error (.io .invalidData "missing start location") := by
  have he : Subscribe.encode ⟨1, 2, [0x76], 3, 1, 1, 4, none, some 20, []⟩ =
      .error (.io .invalidData "missing start location") := rfl
  refine ⟨?_, he⟩
  rintro ⟨r, hr⟩
  rw [he] at hr
  simp at hr

/-- C9 (amended): a SUBSCRIBE with `filter_type = 4` but no start
location fails to encode with the invalid-data I/O error
"missing start location" (so no encoding is produced), and any
TRACK_STATUS payload carrying `status_code = 1` with a largest
location other than `(0,0)` (and no parameters) fails to decode with
the invalid-data I/O error "largest location must be zero". -/
theorem C9_validation_rejection :
    (∀ m : Subscribe, m.request_id < 2 ^ 62 → m.track_namespace < 2 ^ 62 →
      m.track_name.length < 2 ^ 62 → m.group_order ≤ 2 →
      (m.forward = 0 ∨ m.forward = 1) → m.filter_type = 4 → m.start_location = none →
      Subscribe.encode m = .error (.io .invalidData "missing start location")) ∧
    (∀ (rid g o : Nat) (rest : List Nat), rid < 2 ^ 62 → g < 2 ^ 62 → o < 2 ^ 62 →
      ¬(g = 0 ∧ o = 0) →
      TrackStatus.decode (varIntEncodeBytes rid ++ (varIntEncodeBytes 1 ++
        (varIntEncodeBytes g ++ (varIntEncodeBytes o ++
          (varIntEncodeBytes 0 ++ rest))))) =
        .error (.io .invalidData "largest location must be zero")) := by
  constructor
  · intro m h1 h2 h3 hgo hfw hft hsl
    have hgo' : ¬ 2 < m.group_order := by omega
    have hfw' : ¬ (m.forward ≠ 0 ∧ m.forward ≠ 1) := by
      rcases hfw with h | h <;> simp [h]
    have h4 : (4 : Nat) < 2 ^ 62 := by norm_num
    simp [Subscribe.encode, varIntEncode_eq_ok h1, varIntEncode_eq_ok h2,
      varIntEncode_eq_ok h3, hgo', hfw', hft, hsl, varIntEncode_eq_ok h4, invErr]
  · intro rid g o rest h1 hg ho hz
    have h1' : (1 : Nat) < 2 ^ 62 := by norm_num
    have h0' : (0 : Nat) < 2 ^ 62 := by norm_num
    have hor : ¬ g = 0 ∨ ¬ o = 0 := by omega
    rw [TrackStatus.decode]
    simp [varIntDecode_encodeBytes h1, varIntDecode_encodeBytes h1',
      location_decode_encodeBytes' hg ho, varIntDecode_encodeBytes h0',
      decodeParamsRaw, hor, invErr]

/-- C9 (witness): the amended clauses at the concrete SUBSCRIBE above
and at the TRACK_STATUS payload `request_id = 1, status_code = 1,
largest_location = (1, 0), no parameters`. -/
theorem C9_validation_rejection_witness :
    Subscribe.encode ⟨1, 2, [0x76], 3, 1, 1, 4, none, some 20, []⟩ =
      .error (.io .invalidData "missing start location") ∧
    TrackStatus.decode (varIntEncodeBytes 1 ++ (varIntEncodeBytes 1 ++
        (varIntEncodeBytes 1 ++ (varIntEncodeBytes 0 ++
          (varIntEncodeBytes 0 ++ []))))) =
      .error (.io .invalidData "largest location must be zero") :=
  ⟨C9_validation_rejection.1 ⟨1, 2, [0x76], 3, 1, 1, 4, none, some 20, []⟩
      (by norm_num) (by norm_num) (by norm_num) (by norm_num) (by norm_num)
      rfl rfl,
    C9_validation_rejection.2 1 1 0 [] (by norm_num) (by norm_num) (by norm_num)
      (by norm_num)⟩

end Moqt
